import Mathlib

/-!
Verification of bun-curl2 against its specification.

The definitions below are a shallow embedding of the TypeScript sources:

* the process-local expiring map `TTLCache` (services/cache, appended to
  services/command.ts in the snapshot),
* the cache/admission orchestrator `Http` (services/http.ts, final version),
* the buffered response parser (`processResponses` / `processAndBuild`),
* the streaming head parser (`parseReader`),
* the command builder (`BuildCommand` and its helpers).

JavaScript numbers that are used as integers are modelled as `Nat`/`Int`;
JS `Map` is modelled as an insertion-ordered association list; fallible
code returns `Except`/`Option`.  Built-in platform functions (`parseInt`,
`new URL`, `TextDecoder`) are modelled explicitly where used.
-/

namespace BunCurl

/-! ## The process-local expiring map (class TTLCache)

JS `Map` semantics: insertion-ordered key/value list; `set` on an existing
key updates the value in place and keeps the key's position; `keys()`
iterates in insertion order. -/

structure CVal (T : Type) where
  value : T
  expiresAt : Nat
deriving Repr, DecidableEq

/-- A JS `Map` with string keys, in insertion order. -/
abbrev JsMap (T : Type) := List (String × CVal T)

/-- `map.get(k)` (raw, without expiry logic). -/
def mapGet {T : Type} (st : JsMap T) (k : String) : Option (CVal T) :=
  match st with
  | [] => none
  | (k0, v0) :: rest => if k0 = k then some v0 else mapGet rest k

/-- `map.set(k, v)`: update in place if the key exists, else append. -/
def mapSet {T : Type} (st : JsMap T) (k : String) (v : CVal T) : JsMap T :=
  match st with
  | [] => [(k, v)]
  | (k0, v0) :: rest => if k0 = k then (k0, v) :: rest else (k0, v0) :: mapSet rest k v

/-- `map.delete(k)`: remove the binding for `k` if present. -/
def mapDelete {T : Type} (st : JsMap T) (k : String) : JsMap T :=
  match st with
  | [] => []
  | (k0, v0) :: rest => if k0 = k then rest else (k0, v0) :: mapDelete rest k

/-- `[...map.keys()].pop()`: the last key in insertion order. -/
def lastKey {T : Type} (st : JsMap T) : Option String :=
  (st.map Prod.fst).getLast?

/-- `TTLCache.set(key, value, ttlMs)` with constructor option `maxItems`
(`maxItems = 0` models an absent/falsy option, i.e. no limit):

    if (this.options?.maxItems && this.data.size >= this.options.maxItems) {
      const oldestKey = [...this.data.keys()].pop();
      oldestKey && this.data.delete(oldestKey);
    }
    const expiresAt = Date.now() + ttlMs;
    this.data.set(key, { value, expiresAt });

Note the `oldestKey &&` guard: a falsy (empty-string) key skips the delete. -/
def ttlSet {T : Type} (maxItems : Nat) (st : JsMap T) (key : String) (v : T)
    (ttlMs now : Nat) : JsMap T :=
  let st1 :=
    if maxItems ≠ 0 ∧ maxItems ≤ st.length then
      match lastKey st with
      | some k => if k ≠ "" then mapDelete st k else st
      | none => st
    else st
  mapSet st1 key ⟨v, now + ttlMs⟩

/-- `TTLCache.get(key)`: value if present and not expired (expired entries
are deleted); returns the value (or `none`) and the updated map. -/
def ttlGet {T : Type} (st : JsMap T) (key : String) (now : Nat) :
    Option T × JsMap T :=
  match mapGet st key with
  | none => (none, st)
  | some entry =>
      if entry.expiresAt ≤ now then (none, mapDelete st key)
      else (some entry.value, st)

/-! ## The cache/admission orchestrator (function Http, services/http.ts)

`Http` is asynchronous and effectful, so it is embedded as a step function
over an explicit description of the call: the oracles record what each
external suspension point (cache store, process spawn, stream read) would
return.  The produced event trace records the side effects in program
order; the outcome is the settled value of the returned promise. -/

inductive StoreKind
  | ttl      -- cacheServer instanceof TTLCache
  | redis    -- cacheServer instanceof RedisClient
  | generic  -- any other store (the final else branch)
deriving Repr, DecidableEq

inductive Event
  | incr                                        -- concurrentRequests++
  | decr                                        -- concurrentRequests-- (finally)
  | spawn                                       -- Bun.spawn(build.cmd, ...)
  | kill                                        -- proc.kill()
  | cacheWrite (store : StoreKind) (onlyIfAbsent : Bool)
deriving Repr, DecidableEq

inductive Outcome
  | ok (cached : Bool)   -- buffered response returned; true when served from cache
  | okStream             -- streaming ResponseWrapper returned
  | errConcurrent        -- ERR_CONCURRENT_REQUESTS_REACHED
  | errAbort             -- AbortError DOMException
  | errCurl (exitCode : Nat)  -- ERR_CURL_FAILED
  | errParse             -- processAndBuild threw on fresh stdout
  | errBuild             -- BuildCommand rejected
  | errCacheGet          -- cacheServer.get / getCacheKey rejected
  | errStreamParse       -- parseReader rejected (stream ended early)
deriving Repr, DecidableEq

/-- What `await cacheServer.get(cacheKey)` and the subsequent
`processAndBuild` on the cached text would do. -/
inductive CacheGet
  | miss         -- cached == null
  | hitGood      -- hit, processAndBuild succeeds
  | hitCorrupt   -- hit, processAndBuild throws (caught, falls through)
  | throws       -- the get itself rejects (not caught)
deriving Repr, DecidableEq

structure HttpCall where
  counter0 : Nat        -- concurrentRequests at entry
  maxConcurrent : Nat   -- init.maxConcurrentRequests ?? 250, already resolved
  stream : Bool         -- options.stream
  cacheOn : Bool        -- options.cache is truthy
  cacheIsObject : Bool  -- typeof options.cache === 'object'
  hasServer : Bool      -- init.cache?.server is present
  cacheGet : CacheGet
  signalAborted : Bool  -- options.signal present and already aborted
  buildOk : Bool        -- BuildCommand resolves
  streamParseOk : Bool  -- parseReader resolves (stream mode)
  exitCode : Nat        -- proc.exitCode after proc.exited
  parseOk : Bool        -- processAndBuild on fresh stdout succeeds
  validate : Option Bool -- some r: options.cache.validate is a function returning r
  store : StoreKind

structure HttpResult where
  events : List Event
  outcome : Outcome
deriving Repr, DecidableEq

/-- The body of the `try { ... } finally { concurrentRequests-- }` block,
entered after `concurrentRequests++`.  `lookupRan` records whether the
cache-lookup block ran (it is where `cacheKey` is assigned). -/
def httpInvoke (c : HttpCall) (lookupRan : Bool) : HttpResult :=
  if !c.buildOk then ⟨[.incr, .decr], .errBuild⟩
  else if c.stream then
    -- streaming branch: parseReader first, then the signal check
    if !c.streamParseOk then ⟨[.incr, .spawn, .decr], .errStreamParse⟩
    else if c.signalAborted then ⟨[.incr, .spawn, .kill, .decr], .okStream⟩
    else ⟨[.incr, .spawn, .decr], .okStream⟩
  else
    -- buffered branch: Promise.race([stdoutPromise, abortPromise]);
    -- an already-aborted signal rejects the race synchronously
    if c.signalAborted then ⟨[.incr, .spawn, .kill, .decr], .errAbort⟩
    else if c.exitCode ≠ 0 then ⟨[.incr, .spawn, .decr], .errCurl c.exitCode⟩
    else if !c.parseOk then ⟨[.incr, .spawn, .decr], .errParse⟩
    else if lookupRan ∧ c.hasServer ∧ c.cacheIsObject then
      if c.validate = some false then ⟨[.incr, .spawn, .decr], .ok false⟩
      else
        match c.store with
        | .ttl => ⟨[.incr, .spawn, .cacheWrite .ttl false, .decr], .ok false⟩
        | .redis => ⟨[.incr, .spawn, .cacheWrite .redis true, .decr], .ok false⟩
        | .generic => ⟨[.incr, .spawn, .cacheWrite .generic true, .decr], .ok false⟩
    else ⟨[.incr, .spawn, .decr], .ok false⟩

/-- The orchestrator `Http` (services/http.ts, final version, lines 691-909):
admission check, optional cache lookup, then the guarded invocation. -/
def httpRun (c : HttpCall) : HttpResult :=
  if c.maxConcurrent ≤ c.counter0 then ⟨[], .errConcurrent⟩
  else if c.cacheOn ∧ c.hasServer ∧ !c.stream then
    match c.cacheGet with
    | .throws => ⟨[], .errCacheGet⟩
    | .hitGood => ⟨[], .ok true⟩
    | .hitCorrupt => httpInvoke c true
    | .miss => httpInvoke c true
  else httpInvoke c false

/-- Net effect of the trace on the shared counter. -/
def applyEvents (n : Nat) : List Event → Nat
  | [] => n
  | .incr :: rest => applyEvents (n + 1) rest
  | .decr :: rest => applyEvents (n - 1) rest
  | _ :: rest => applyEvents n rest

/-! ### Basic facts about the JS map model -/

theorem mapSet_length_le {T : Type} (st : JsMap T) (k : String) (v : CVal T) :
    (mapSet st k v).length ≤ st.length + 1 := by
  induction st with
  | nil => simp [mapSet]
  | cons hd tl ih =>
      unfold mapSet
      by_cases h : hd.1 = k
      · simp [h]
      · simpa [h] using Nat.succ_le_succ ih

theorem mapDelete_length_of_mem {T : Type} (st : JsMap T) (k : String)
    (h : k ∈ st.map Prod.fst) : (mapDelete st k).length + 1 = st.length := by
  induction st with
  | nil => simp at h
  | cons hd tl ih =>
      unfold mapDelete
      by_cases hk : hd.1 = k
      · simp [hk]
      · have hmem : k ∈ tl.map Prod.fst := by
          rcases List.mem_map.mp h with ⟨p, hp, he⟩
          rcases List.mem_cons.mp hp with rfl | hp2
          · exact absurd he hk
          · exact List.mem_map.mpr ⟨p, hp2, he⟩
        simpa [hk] using ih hmem

theorem getLast?_mem_of_eq {α : Type} :
    ∀ (l : List α) (a : α), l.getLast? = some a → a ∈ l
  | [], a, h => by simp [List.getLast?] at h
  | [b], a, h => by
      simp [List.getLast?] at h
      simp [h]
  | b :: c :: tl, a, h => by
      have h2 : (c :: tl).getLast? = some a := by
        simpa [List.getLast?] using h
      exact List.mem_cons_of_mem b (getLast?_mem_of_eq (c :: tl) a h2)

theorem lastKey_mem {T : Type} (st : JsMap T) (k : String)
    (h : lastKey st = some k) : k ∈ st.map Prod.fst :=
  getLast?_mem_of_eq (st.map Prod.fst) k h

/-! ## Claim C10: eviction behaviour of the local expiring map -/

/-- [C10] The claim as stated is false: when the last key in insertion order
is the empty string, the `oldestKey && this.data.delete(oldestKey)` guard
treats it as falsy and skips the deletion, so a map constructed with
`maxItems = 1` ends up holding 2 entries after a `set`. -/
theorem ttlSet_maxItems_counterexample :
    (ttlSet 1 (ttlSet 1 ([] : JsMap Nat) "" 7 5 0) "x" 8 5 0).length = 2 ∧
      ¬ (ttlSet 1 (ttlSet 1 ([] : JsMap Nat) "" 7 5 0) "x" 8 5 0).length ≤ 1 := by
  decide

/-- [C10, amended] When `set` is called on a map already at (or above) its
`maxItems` limit, the key deleted to make room is the last key in insertion
order, provided that key is not the empty string; and starting from a map
within the limit whose last key is nonempty, a `set` leaves at most
`maxItems` entries. -/
theorem ttlSet_evicts_lastKey {T : Type} (maxItems : Nat) (st : JsMap T)
    (k : String) (v : T) (ttl now : Nat)
    (hpos : 1 ≤ maxItems) (hle : st.length ≤ maxItems)
    (hne : lastKey st ≠ some "") :
    (maxItems ≤ st.length →
      ∃ lk, lastKey st = some lk ∧
        ttlSet maxItems st k v ttl now = mapSet (mapDelete st lk) k ⟨v, now + ttl⟩) ∧
    (ttlSet maxItems st k v ttl now).length ≤ maxItems := by
  by_cases hfull : maxItems ≤ st.length
  · have hlen : st.length = maxItems := Nat.le_antisymm hle hfull
    have hstne : st ≠ [] := by
      intro h0
      rw [h0] at hlen
      simp at hlen
      omega
    obtain ⟨lk, hlk⟩ : ∃ lk, lastKey st = some lk := by
      unfold lastKey
      cases hmap : st.map Prod.fst with
      | nil => exact absurd (List.map_eq_nil_iff.mp hmap) hstne
      | cons a l => exact ⟨(a :: l).getLast (by simp), List.getLast?_eq_getLast _ _⟩
    have hlkne : lk ≠ "" := by
      intro h0
      exact hne (h0 ▸ hlk)
    have heq : ttlSet maxItems st k v ttl now
        = mapSet (mapDelete st lk) k ⟨v, now + ttl⟩ := by
      unfold ttlSet
      simp only [hlk]
      have hcond : maxItems ≠ 0 ∧ maxItems ≤ st.length := ⟨by omega, hfull⟩
      simp [hcond, hlkne]
    refine ⟨fun _ => ⟨lk, hlk, heq⟩, ?_⟩
    rw [heq]
    have hdel : (mapDelete st lk).length + 1 = st.length :=
      mapDelete_length_of_mem st lk (lastKey_mem st lk hlk)
    have := mapSet_length_le (mapDelete st lk) k (⟨v, now + ttl⟩ : CVal T)
    omega
  · refine ⟨fun h => absurd h hfull, ?_⟩
    have heq : ttlSet maxItems st k v ttl now = mapSet st k ⟨v, now + ttl⟩ := by
      unfold ttlSet
      have hcond : ¬ (maxItems ≠ 0 ∧ maxItems ≤ st.length) := by
        intro ⟨_, h2⟩
        exact hfull h2
      simp [hcond]
    rw [heq]
    have := mapSet_length_le st k (⟨v, now + ttl⟩ : CVal T)
    omega

/-- [C10, witness] The amended statement at a concrete full map. -/
theorem ttlSet_evicts_lastKey_witness :
    (1 ≤ 2 ∧ ([("a", (⟨1, 10⟩ : CVal Nat)), ("b", ⟨2, 10⟩)] : JsMap Nat).length ≤ 2 ∧
      lastKey ([("a", (⟨1, 10⟩ : CVal Nat)), ("b", ⟨2, 10⟩)] : JsMap Nat) ≠ some "") ∧
    ((2 ≤ ([("a", (⟨1, 10⟩ : CVal Nat)), ("b", ⟨2, 10⟩)] : JsMap Nat).length →
      ∃ lk, lastKey ([("a", (⟨1, 10⟩ : CVal Nat)), ("b", ⟨2, 10⟩)] : JsMap Nat) = some lk ∧
        ttlSet 2 [("a", ⟨1, 10⟩), ("b", ⟨2, 10⟩)] "c" 3 100 50
          = mapSet (mapDelete [("a", ⟨1, 10⟩), ("b", ⟨2, 10⟩)] lk) "c" ⟨3, 150⟩) ∧
      (ttlSet 2 [("a", ⟨1, 10⟩), ("b", ⟨2, 10⟩)] "c" 3 100 50).length ≤ 2) :=
  ⟨⟨by decide, by decide, by decide⟩,
    ttlSet_evicts_lastKey 2 [("a", ⟨1, 10⟩), ("b", ⟨2, 10⟩)] "c" 3 100 50
      (by decide) (by decide) (by decide)⟩

/-! ## Claim C1: behaviour on an already-aborted cancellation signal -/

/-- A buffered call with an already-aborted signal, no cache. -/
def abortedCall : HttpCall :=
  { counter0 := 0, maxConcurrent := 250, stream := false, cacheOn := false,
    cacheIsObject := false, hasServer := false, cacheGet := .miss,
    signalAborted := true, buildOk := true, streamParseOk := true,
    exitCode := 0, parseOk := true, validate := none, store := .ttl }

/-- [C1] The claim as stated is false: with an already-aborted signal the
call does reject with the abort error kind, but the transport process is
spawned first (`Bun.spawn` runs before the signal is consulted) and then
killed. -/
theorem http_aborted_counterexample :
    (httpRun abortedCall).outcome = .errAbort ∧
      Event.spawn ∈ (httpRun abortedCall).events := by
  decide

/-- [C1, amended] A buffered, admitted call that does not hit the cache and
whose signal is already aborted rejects with the abort error kind, after
spawning the transport process and immediately killing it. -/
theorem http_aborted_spawns_kills_rejects (c : HttpCall)
    (hstream : c.stream = false) (hab : c.signalAborted = true)
    (hadm : c.counter0 < c.maxConcurrent) (hb : c.buildOk = true)
    (hmiss : c.cacheGet = .miss ∨ c.cacheGet = .hitCorrupt ∨
      c.cacheOn = false ∨ c.hasServer = false) :
    (httpRun c).outcome = .errAbort ∧ Event.spawn ∈ (httpRun c).events ∧
      Event.kill ∈ (httpRun c).events := by
  have hnot : ¬ (c.maxConcurrent ≤ c.counter0) := Nat.not_le.mpr hadm
  unfold httpRun httpInvoke
  rcases hmiss with h | h | h | h <;>
    by_cases hc : c.cacheOn ∧ c.hasServer ∧ !c.stream <;>
      simp [hnot, hstream, hab, hb, h, hc]

/-- [C1, witness] The amended statement at the concrete aborted call. -/
theorem http_aborted_spawns_kills_rejects_witness :
    (abortedCall.stream = false ∧ abortedCall.signalAborted = true ∧
      abortedCall.counter0 < abortedCall.maxConcurrent ∧
      abortedCall.buildOk = true ∧ abortedCall.cacheOn = false) ∧
    ((httpRun abortedCall).outcome = .errAbort ∧
      Event.spawn ∈ (httpRun abortedCall).events ∧
      Event.kill ∈ (httpRun abortedCall).events) :=
  ⟨⟨rfl, rfl, by decide, rfl, rfl⟩,
    http_aborted_spawns_kills_rejects abortedCall rfl rfl (by decide) rfl
      (Or.inr (Or.inr (Or.inl rfl)))⟩

/-! ## Claim C2: admission control and the in-flight counter -/

/-- Control-flow case split for `httpRun`: either the admission rejection
is taken, or (below the ceiling) one of the two cache-lookup exits is
taken, or the call enters the guarded invocation. -/
theorem httpRun_cases (c : HttpCall) :
    httpRun c = ⟨[], .errConcurrent⟩ ∨
      (¬ c.maxConcurrent ≤ c.counter0 ∧
        (httpRun c = ⟨[], .errCacheGet⟩ ∨ httpRun c = ⟨[], .ok true⟩ ∨
          ∃ lr, httpRun c = httpInvoke c lr)) := by
  unfold httpRun
  by_cases h1 : c.maxConcurrent ≤ c.counter0
  · rw [if_pos h1]
    exact Or.inl rfl
  · rw [if_neg h1]
    refine Or.inr ⟨h1, ?_⟩
    by_cases h2 : c.cacheOn = true ∧ c.hasServer = true ∧ (!c.stream) = true
    · rw [if_pos h2]
      cases hg : c.cacheGet with
      | throws => exact Or.inl (by simp)
      | hitGood => exact Or.inr (Or.inl (by simp))
      | hitCorrupt => exact Or.inr (Or.inr ⟨true, by simp⟩)
      | miss => exact Or.inr (Or.inr ⟨true, by simp⟩)
    · rw [if_neg h2]
      exact Or.inr (Or.inr ⟨false, rfl⟩)

theorem httpRun_saturated (c : HttpCall) (h : c.maxConcurrent ≤ c.counter0) :
    httpRun c = ⟨[], .errConcurrent⟩ := by
  unfold httpRun
  rw [if_pos h]

theorem httpInvoke_shape (c : HttpCall) (lr : Bool) :
    (∀ n, applyEvents n (httpInvoke c lr).events = n) ∧
    Event.incr ∈ (httpInvoke c lr).events ∧
    (httpInvoke c lr).events.count Event.incr
      = (httpInvoke c lr).events.count Event.decr ∧
    (httpInvoke c lr).outcome ≠ .ok true := by
  unfold httpInvoke
  repeat' split
  all_goals simp [applyEvents]

/-- [C2] The in-flight counter is incremented only on the invocation path
(never on a cache hit), every exit path restores the counter (matched
increment/decrement pairs), and a call that begins at or above the ceiling
is rejected with the distinct concurrency error kind with no events at all
(in particular before any process is spawned). -/
theorem http_admission_counter (c : HttpCall) :
    (c.maxConcurrent ≤ c.counter0 →
      (httpRun c).outcome = .errConcurrent ∧ (httpRun c).events = []) ∧
    applyEvents c.counter0 (httpRun c).events = c.counter0 ∧
    ((httpRun c).outcome = .ok true → Event.incr ∉ (httpRun c).events) ∧
    (Event.spawn ∈ (httpRun c).events → Event.incr ∈ (httpRun c).events) ∧
    (httpRun c).events.count Event.incr = (httpRun c).events.count Event.decr := by
  rcases httpRun_cases c with heq | ⟨h1, heq | heq | ⟨lr, heq⟩⟩
  · simp [heq, applyEvents]
  · simp [heq, applyEvents, h1]
  · simp [heq, applyEvents, h1]
  · obtain ⟨hbal, hincr, hcnt, hnotc⟩ := httpInvoke_shape c lr
    rw [heq]
    exact ⟨fun hsat => absurd hsat h1, hbal c.counter0,
      fun hok => absurd hok hnotc, fun _ => hincr, hcnt⟩

/-- [C2, witness] The admission conjunct at a saturated concrete call. -/
def saturatedCall : HttpCall :=
  { abortedCall with counter0 := 5, maxConcurrent := 5, signalAborted := false }

theorem http_admission_counter_witness :
    (httpRun saturatedCall).outcome = .errConcurrent ∧
      (httpRun saturatedCall).events = [] :=
  (http_admission_counter saturatedCall).1 (by decide)

/-! ## Claim C7: conditional semantics of cache writes -/

/-- A buffered, cache-enabled call that misses and succeeds, writing back
through the process-local `TTLCache` store. -/
def writeTtlCall : HttpCall :=
  { counter0 := 0, maxConcurrent := 250, stream := false, cacheOn := true,
    cacheIsObject := true, hasServer := true, cacheGet := .miss,
    signalAborted := false, buildOk := true, streamParseOk := true,
    exitCode := 0, parseOk := true, validate := none, store := .ttl }

/-- [C7] The claim as stated is false: the cache write issued to the
process-local expiring map is unconditional (`cacheServer.set(key, stdout,
expireMs)` with no only-if-absent condition), and `TTLCache.set` replaces
an existing entry for the key. -/
theorem http_cache_write_counterexample :
    Event.cacheWrite .ttl false ∈ (httpRun writeTtlCall).events ∧
      mapGet (ttlSet 0 [("k", ⟨1, 100⟩)] "k" 2 1000 50) "k"
        = some (⟨2, 1050⟩ : CVal Nat) := by
  decide

/-- [C7, amended] Cache writes happen only after a successful non-cached
invocation; writes through the Redis and generic store classes use the
only-if-absent condition, while writes through the process-local
`TTLCache` are unconditional. -/
theorem httpInvoke_write (c : HttpCall) (lr : Bool) (s : StoreKind) (b : Bool)
    (h : Event.cacheWrite s b ∈ (httpInvoke c lr).events) :
    (s = .ttl → b = false) ∧ (s ≠ .ttl → b = true) ∧
      (httpInvoke c lr).outcome = .ok false ∧
      Event.spawn ∈ (httpInvoke c lr).events := by
  unfold httpInvoke at h ⊢
  repeat' split at h
  all_goals simp_all

theorem http_cache_write_conditional (c : HttpCall) (s : StoreKind) (b : Bool)
    (h : Event.cacheWrite s b ∈ (httpRun c).events) :
    (s = .ttl → b = false) ∧ (s ≠ .ttl → b = true) ∧
      (httpRun c).outcome = .ok false ∧ Event.spawn ∈ (httpRun c).events := by
  rcases httpRun_cases c with heq | ⟨h1, heq | heq | ⟨lr, heq⟩⟩
  · rw [heq] at h
    simp at h
  · rw [heq] at h
    simp at h
  · rw [heq] at h
    simp at h
  · rw [heq] at h ⊢
    exact httpInvoke_write c lr s b h

/-- [C7, witness] The amended statement at the concrete TTLCache write. -/
theorem http_cache_write_conditional_witness :
    Event.cacheWrite .ttl false ∈ (httpRun writeTtlCall).events ∧
    ((StoreKind.ttl = .ttl → false = false) ∧
      (StoreKind.ttl ≠ .ttl → false = true) ∧
      (httpRun writeTtlCall).outcome = .ok false ∧
      Event.spawn ∈ (httpRun writeTtlCall).events) :=
  ⟨by decide, http_cache_write_conditional writeTtlCall .ttl false (by decide)⟩

/-! ## JavaScript string primitives

The response parsers work over JS strings holding latin1-decoded bytes
(one char per byte).  They are modelled as Lean strings, scanned through
their character lists. -/

/-- One step of `s.indexOf(pat, i)`: does `pat` occur at position `i`? -/
def subAt (s pat : List Char) (i : Nat) : Bool :=
  pat.isPrefixOf (s.drop i)

def idxOfFromAux (s pat : List Char) : Nat → Nat → Option Nat
  | _, 0 => none
  | i, f + 1 =>
      if subAt s pat i then some i
      else if s.length ≤ i then none
      else idxOfFromAux s pat (i + 1) f

/-- JS `s.indexOf(pat, start)` (`none` for `-1`); `pat` is nonempty at
every call site. -/
def idxOfFrom (s pat : List Char) (start : Nat) : Option Nat :=
  idxOfFromAux s pat start (s.length + 1)

/-- JS `s.substring(a, b)`: clamps both arguments to `[0, length]` and
swaps them when `a > b`. -/
def jsSubstringL (s : List Char) (a b : Nat) : List Char :=
  let n := s.length
  let a2 := min a n
  let b2 := min b n
  ((s.drop (min a2 b2)).take (max a2 b2 - min a2 b2))

def jsSubstring (s : String) (a b : Nat) : String :=
  String.mk (jsSubstringL s.toList a b)

/-- JS `str.toLowerCase()` (ASCII range; all call sites pass header names
or content types). -/
def jsToLower (s : String) : String :=
  String.mk (s.toList.map Char.toLower)

/-- JS whitespace (the characters relevant to `trim`/`parseInt` on the
byte strings handled here). -/
def jsWhitespaceChar (c : Char) : Bool :=
  c = ' ' ∨ c = '\t' ∨ c = '\n' ∨ c = '\r' ∨ c = '\x0b' ∨ c = '\x0c'

/-- JS `str.trimStart()`. -/
def jsTrimStart (s : String) : String :=
  String.mk (s.toList.dropWhile jsWhitespaceChar)

/-- JS `str.trim()`. -/
def jsTrim (s : String) : String :=
  String.mk (((s.toList.dropWhile jsWhitespaceChar).reverse.dropWhile
    jsWhitespaceChar).reverse)

/-- JS `str.startsWith(pat)`. -/
def jsStartsWith (s pat : String) : Bool :=
  pat.toList.isPrefixOf s.toList

def jsSplitAux (sep : List Char) : Nat → List Char → List (List Char)
  | 0, l => [l]
  | f + 1, l =>
      match idxOfFrom l sep 0 with
      | none => [l]
      | some i => l.take i :: jsSplitAux sep f (l.drop (i + sep.length))

/-- JS `str.split(sep)` for a nonempty string separator. -/
def jsSplit (s sep : String) : List String :=
  (jsSplitAux sep.toList (s.length + 1) s.toList).map String.mk

/-- JS `arr.join(sep)`. -/
def jsIntercalate (sep : String) : List String → String
  | [] => ""
  | [s] => s
  | s :: rest => s ++ sep ++ jsIntercalate sep rest

/-- Substring containment, JS `s.includes(pat)` / `s.indexOf(pat) !== -1`. -/
def strContainsSub (s pat : String) : Bool :=
  (idxOfFrom s.toList pat.toList 0).isSome

/-- JS `parseInt(tok, 10)`: skip leading whitespace, optional sign,
then the maximal run of leading decimal digits; `none` models `NaN`. -/
def jsParseInt (s : String) : Option Int :=
  let l := s.toList.dropWhile jsWhitespaceChar
  let core : List Char → Option Nat := fun cs =>
    let ds := cs.takeWhile Char.isDigit
    if ds = [] then none
    else some (ds.foldl (fun acc c => acc * 10 + (c.toNat - 48)) 0)
  match l with
  | '-' :: rest => (core rest).map (fun n => -(n : Int))
  | '+' :: rest => (core rest).map (fun n => (n : Int))
  | rest => (core rest).map (fun n => (n : Int))

/-- `v || fb` for the result of `parseInt`: `NaN` (`none`) and `0` are
falsy. -/
def jsOrInt (v : Option Int) (fb : Int) : Int :=
  match v with
  | none => fb
  | some n => if n = 0 then fb else n

/-- `parseInt(statusLine.split(' ')[1], 10) || fb`: the fallback is used
when the token is missing, is not a number (NaN), or parses to 0 (falsy). -/
def statusFromLine (line : String) (fb : Int) : Int :=
  match (jsSplit line " ").get? 1 with
  | none => fb
  | some tok => jsOrInt (jsParseInt tok) fb

/-! ## A model of `JSON.parse` / `JSON.stringify`

Restricted to integer numerals (no fractional or exponent forms; a
fractional numeral makes the model parser fail), which every input used
in this development satisfies. -/

inductive JsonLite
  | jnull
  | jbool (b : Bool)
  | jnum (n : Int)
  | jstr (s : String)
  | jarr (elems : List JsonLite)
  | jobj (members : List (String × JsonLite))
deriving Repr

/-- Is the value a JS object or array (`[object Object]`/`[object Array]`)? -/
def JsonLite.isObjOrArr : JsonLite → Bool
  | .jarr _ => true
  | .jobj _ => true
  | _ => false

def jsonWs (c : Char) : Bool :=
  c = ' ' ∨ c = '\t' ∨ c = '\n' ∨ c = '\r'

def skipJsonWs (l : List Char) : List Char :=
  l.dropWhile jsonWs

def hexVal (c : Char) : Option Nat :=
  if '0' ≤ c ∧ c ≤ '9' then some (c.toNat - 48)
  else if 'a' ≤ c ∧ c ≤ 'f' then some (c.toNat - 87)
  else if 'A' ≤ c ∧ c ≤ 'F' then some (c.toNat - 55)
  else none

/-- Parse the remainder of a JSON string literal (after the opening quote). -/
def jpString : Nat → List Char → Option (String × List Char)
  | 0, _ => none
  | _, [] => none
  | f + 1, c :: rest =>
      if c = '"' then some ("", rest)
      else if c = '\\' then
        match rest with
        | [] => none
        | e :: rest2 =>
            let esc : Option (Char × List Char) :=
              if e = '"' then some ('"', rest2)
              else if e = '\\' then some ('\\', rest2)
              else if e = '/' then some ('/', rest2)
              else if e = 'b' then some ('\x08', rest2)
              else if e = 'f' then some ('\x0c', rest2)
              else if e = 'n' then some ('\n', rest2)
              else if e = 'r' then some ('\r', rest2)
              else if e = 't' then some ('\t', rest2)
              else if e = 'u' then
                match rest2 with
                | h1 :: h2 :: h3 :: h4 :: rest3 =>
                    match hexVal h1, hexVal h2, hexVal h3, hexVal h4 with
                    | some a, some b, some c2, some d =>
                        some (Char.ofNat (a * 4096 + b * 256 + c2 * 16 + d), rest3)
                    | _, _, _, _ => none
                | _ => none
              else none
            match esc with
            | none => none
            | some (ch, rest3) =>
                (jpString f rest3).map (fun p => (String.mk (ch :: p.1.toList), p.2))
      else if c.toNat < 32 then none
      else (jpString f rest).map (fun p => (String.mk (c :: p.1.toList), p.2))

/-- Parse a JSON integer numeral. -/
def jpNumber (l : List Char) : Option (Int × List Char) :=
  let signed := l.head? = some '-'
  let l2 := if signed then l.drop 1 else l
  let ds := l2.takeWhile Char.isDigit
  let rest := l2.drop ds.length
  if ds = [] then none
  else if ds.length > 1 ∧ ds.head? = some '0' then none
  else
    match rest with
    | '.' :: _ => none   -- fractional numerals are outside the model
    | 'e' :: _ => none
    | 'E' :: _ => none
    | _ =>
        let n : Int := ds.foldl (fun acc c => acc * 10 + ((c.toNat : Int) - 48)) 0
        some (if signed then -n else n, rest)

mutual

def jpValue : Nat → List Char → Option (JsonLite × List Char)
  | 0, _ => none
  | f + 1, l =>
      match skipJsonWs l with
      | [] => none
      | c :: rest =>
          if c = '{' then
            match skipJsonWs rest with
            | '}' :: rest2 => some (.jobj [], rest2)
            | _ => (jpMembers f rest).map (fun p => (JsonLite.jobj p.1, p.2))
          else if c = '[' then
            match skipJsonWs rest with
            | ']' :: rest2 => some (.jarr [], rest2)
            | _ => (jpElements f rest).map (fun p => (JsonLite.jarr p.1, p.2))
          else if c = '"' then
            (jpString (rest.length + 1) rest).map (fun p => (JsonLite.jstr p.1, p.2))
          else if c = 't' then
            match rest with
            | 'r' :: 'u' :: 'e' :: rest2 => some (.jbool true, rest2)
            | _ => none
          else if c = 'f' then
            match rest with
            | 'a' :: 'l' :: 's' :: 'e' :: rest2 => some (.jbool false, rest2)
            | _ => none
          else if c = 'n' then
            match rest with
            | 'u' :: 'l' :: 'l' :: rest2 => some (.jnull, rest2)
            | _ => none
          else
            (jpNumber (c :: rest)).map (fun p => (JsonLite.jnum p.1, p.2))

def jpElements : Nat → List Char → Option (List JsonLite × List Char)
  | 0, _ => none
  | f + 1, l =>
      match jpValue f l with
      | none => none
      | some (v, rest) =>
          match skipJsonWs rest with
          | ',' :: rest2 =>
              (jpElements f rest2).map (fun p => (v :: p.1, p.2))
          | ']' :: rest2 => some ([v], rest2)
          | _ => none

def jpMembers : Nat → List Char → Option (List (String × JsonLite) × List Char)
  | 0, _ => none
  | f + 1, l =>
      match skipJsonWs l with
      | '"' :: rest =>
          match jpString (rest.length + 1) rest with
          | none => none
          | some (k, rest2) =>
              match skipJsonWs rest2 with
              | ':' :: rest3 =>
                  match jpValue f rest3 with
                  | none => none
                  | some (v, rest4) =>
                      match skipJsonWs rest4 with
                      | ',' :: rest5 =>
                          (jpMembers f rest5).map (fun p => ((k, v) :: p.1, p.2))
                      | '}' :: rest5 => some ([(k, v)], rest5)
                      | _ => none
              | _ => none
      | _ => none

end

/-- `JSON.parse`, restricted as described above; `none` models a thrown
`SyntaxError`. -/
def jsonParse (s : String) : Option JsonLite :=
  match jpValue (2 * s.length + 4) s.toList with
  | none => none
  | some (v, rest) => if skipJsonWs rest = [] then some v else none

def jsonEscape (s : String) : String :=
  String.join (s.toList.map (fun c =>
    if c = '"' then "\\\""
    else if c = '\\' then "\\\\"
    else if c = '\n' then "\\n"
    else if c = '\r' then "\\r"
    else if c = '\t' then "\\t"
    else if c = '\x08' then "\\b"
    else if c = '\x0c' then "\\f"
    else String.singleton c))

mutual

/-- `JSON.stringify` (compact form, integer numerals only). -/
def jsonStringify : JsonLite → String
  | .jnull => "null"
  | .jbool true => "true"
  | .jbool false => "false"
  | .jnum n => toString n
  | .jstr s => "\"" ++ jsonEscape s ++ "\""
  | .jarr elems => "[" ++ jsonStringifyElems elems ++ "]"
  | .jobj members => "\x7b" ++ jsonStringifyMembers members ++ "\x7d"

def jsonStringifyElems : List JsonLite → String
  | [] => ""
  | [v] => jsonStringify v
  | v :: rest => jsonStringify v ++ "," ++ jsonStringifyElems rest

def jsonStringifyMembers : List (String × JsonLite) → String
  | [] => ""
  | [(k, v)] => "\"" ++ jsonEscape k ++ "\":" ++ jsonStringify v
  | (k, v) :: rest =>
      "\"" ++ jsonEscape k ++ "\":" ++ jsonStringify v ++ "," ++ jsonStringifyMembers rest

end

/-- `hasJsonStructure` on a string (models/utils.ts): `JSON.parse` must
succeed and produce an object or array. -/
def hasJsonStructureStr (s : String) : Bool :=
  match jsonParse s with
  | some v => v.isObjOrArr
  | none => false

/-- `determineContentType` (models/utils.ts): JSON sniff, then the
URL-encoded form regex, then plain text. -/
def determineContentType (body : String) : String :=
  if hasJsonStructureStr body then "application/json;charset=UTF-8"
  else if (jsSplit body "&").all
      (fun p => p.toList.count '=' = 1 ∧ p.toList.head? ≠ some '=')
    then "application/x-www-form-urlencoded;charset=UTF-8"
  else "text/plain;charset=UTF-8"

/-! ## Byte decoding

`Buffer.from(s, 'binary').toString('utf-8')` reinterprets the latin1
characters of `s` as bytes and decodes them as UTF-8 (WHATWG decoder,
U+FFFD on error). -/

def utf8Cont (lo hi b : Nat) : Bool :=
  lo ≤ b ∧ b ≤ hi

def utf8Fffd : Char := Char.ofNat 0xFFFD

/-- WHATWG UTF-8 decode with replacement; on a bad continuation byte the
lead byte is replaced and scanning resumes at the offending byte. -/
def utf8Decode : Nat → List Nat → List Char
  | 0, _ => []
  | _, [] => []
  | f + 1, b :: rest =>
      if b ≤ 0x7F then Char.ofNat b :: utf8Decode f rest
      else if 0xC2 ≤ b ∧ b ≤ 0xDF then
        match rest with
        | b2 :: r2 =>
            if utf8Cont 0x80 0xBF b2 then
              Char.ofNat ((b % 32) * 64 + b2 % 64) :: utf8Decode f r2
            else utf8Fffd :: utf8Decode f rest
        | [] => [utf8Fffd]
      else if 0xE0 ≤ b ∧ b ≤ 0xEF then
        let lo2 := if b = 0xE0 then 0xA0 else 0x80
        let hi2 := if b = 0xED then 0x9F else 0xBF
        match rest with
        | b2 :: r2 =>
            if utf8Cont lo2 hi2 b2 then
              match r2 with
              | b3 :: r3 =>
                  if utf8Cont 0x80 0xBF b3 then
                    Char.ofNat ((b % 16) * 4096 + (b2 % 64) * 64 + b3 % 64)
                      :: utf8Decode f r3
                  else utf8Fffd :: utf8Decode f r2
              | [] => [utf8Fffd]
            else utf8Fffd :: utf8Decode f rest
        | [] => [utf8Fffd]
      else if 0xF0 ≤ b ∧ b ≤ 0xF4 then
        let lo2 := if b = 0xF0 then 0x90 else 0x80
        let hi2 := if b = 0xF4 then 0x8F else 0xBF
        match rest with
        | b2 :: r2 =>
            if utf8Cont lo2 hi2 b2 then
              match r2 with
              | b3 :: r3 =>
                  if utf8Cont 0x80 0xBF b3 then
                    match r3 with
                    | b4 :: r4 =>
                        if utf8Cont 0x80 0xBF b4 then
                          Char.ofNat ((b % 8) * 262144 + (b2 % 64) * 4096
                              + (b3 % 64) * 64 + b4 % 64)
                            :: utf8Decode f r4
                        else utf8Fffd :: utf8Decode f r3
                    | [] => [utf8Fffd]
                  else utf8Fffd :: utf8Decode f r2
              | [] => [utf8Fffd]
            else utf8Fffd :: utf8Decode f rest
        | [] => [utf8Fffd]
      else utf8Fffd :: utf8Decode f rest

/-- `Buffer.from(s, 'binary').toString('utf-8')`; characters above `0xFF`
are truncated to their low byte, as `Buffer.from(_, 'binary')` does. -/
def latin1ToUtf8 (s : String) : String :=
  let bytes := s.toList.map (fun c => c.toNat % 256)
  String.mk (utf8Decode (bytes.length + 1) bytes)

/-! ## The CustomHeaders collaborator (models/headers.ts)

The constructor validates each name/value pair and lower-cases the names;
`get` joins multiple values with a comma (lower-casing the result for
content-encoding only). -/

inductive ErrKind
  | typeError                       -- a plain TypeError (undefined access, bad URL)
  | bodySizeExceeded                -- ERR_BODY_SIZE_EXCEEDED
  | invalidToken                    -- ERR_INVALID_HTTP_TOKEN
  | invalidChar                     -- ERR_INVALID_CHAR
  | invalidResponse (raw : String)  -- ERR_INVALID_RESPONSE_BODY
  | streamEnded                     -- parseReader: stream ended before headers
deriving Repr, DecidableEq

/-- The regex `^[\^`‐backtick‐\-\w!#$%&'*+.|~]+$` of `validateHeaderName`
(word characters, plus the listed punctuation), nonempty. -/
def headerNameCharOk (c : Char) : Bool :=
  ('a' ≤ c ∧ c ≤ 'z') ∨ ('A' ≤ c ∧ c ≤ 'Z') ∨ ('0' ≤ c ∧ c ≤ '9') ∨
    c = '_' ∨ c = '^' ∨ c.toNat = 96 ∨ c = '-' ∨ c = '!' ∨ c = '#' ∨
    c = '$' ∨ c = '%' ∨ c = '&' ∨ c.toNat = 39 ∨ c = '*' ∨ c = '+' ∨
    c = '.' ∨ c = '|' ∨ c = '~'

def headerNameOk (name : String) : Bool :=
  name ≠ "" ∧ name.toList.all headerNameCharOk

/-- `validateHeaderValue`: every character in `\t`, `0x20..0x7E`, or
`0x80..0xFF`. -/
def headerValueOk (value : String) : Bool :=
  value.toList.all (fun c =>
    c = '\t' ∨ (0x20 ≤ c.toNat ∧ c.toNat ≤ 0x7E) ∨
      (0x80 ≤ c.toNat ∧ c.toNat ≤ 0xFF))

/-- The CustomHeaders constructor on a pair list: validate, lower-case
names, keep order (URLSearchParams storage). -/
def mkHeaders : List (String × String) → Except ErrKind (List (String × String))
  | [] => .ok []
  | (k, v) :: rest =>
      if ¬ headerNameOk k then .error .invalidToken
      else if ¬ headerValueOk v then .error .invalidChar
      else (mkHeaders rest).map (fun t => (jsToLower k, v) :: t)

/-- `CustomHeaders.get(name)`: all values for the (lower-cased) name
joined with a comma; content-encoding values are lower-cased. -/
def headersGetJoined (stored : List (String × String)) (name : String) :
    Option String :=
  let n := jsToLower name
  match (stored.filter (fun p => p.1 = n)).map Prod.snd with
  | [] => none
  | vs =>
      let joined := jsIntercalate ", " vs
      some (if n = "content-encoding" then jsToLower joined else joined)

/-! ## The buffered response frame parser (processResponses) -/

structure Frame where
  url : String
  body : String
  headers : List (String × String)
  status : Int
  requestStartTime : Nat
  parseJSON : Bool
  cached : Bool
deriving Repr, DecidableEq

/-- Is position `i` a line-start occurrence of `HTTP/` (with at least one
character after it, as the `i < n - 5` loop bound requires)?  The
preceding character must be absent, `\n`, or a `\r` itself preceded by
`\n`. -/
def isHttpStart (l : List Char) (i : Nat) : Bool :=
  (l.drop i).take 5 = "HTTP/".toList ∧
    (i = 0 ∨ l[i - 1]? = some '\n' ∨
      (2 ≤ i ∧ l[i - 1]? = some '\r' ∧ l[i - 2]? = some '\n'))

/-- `findHttpStarts`: all line-start `HTTP/` markers, scanning positions
`0 ≤ i < n - 5`. -/
def findHttpStarts (raw : String) : List Nat :=
  let l := raw.toList
  (List.range (l.length - 5)).filter (isHttpStart l)

/-- The `replace(/^\r?\n/, '')` applied to each part. -/
def stripLeadingNL : List Char → List Char
  | '\r' :: '\n' :: rest => rest
  | '\n' :: rest => rest
  | part => part

/-- The header-line scanning loop of `processResponses` (cursor walk
between the status line and the header/body separator). -/
def headerScan (part : List Char) : Nat → Nat → Nat → List (String × String)
  | _, _, 0 => []
  | cursor, hdrEnd, f + 1 =>
      if cursor < hdrEnd then
        let nextEnd := idxOfFrom part "\r\n".toList cursor
        let endPos :=
          match nextEnd with
          | some ne => if ne ≤ hdrEnd then ne else hdrEnd
          | none => hdrEnd
        let colon := idxOfFrom part ":".toList cursor
        let rest := headerScan part (endPos + 2) hdrEnd f
        match colon with
        | some ci =>
            if cursor < ci ∧ ci < endPos then
              (String.mk (jsSubstringL part cursor ci),
                jsTrimStart (String.mk (jsSubstringL part (ci + 1) endPos))) :: rest
            else rest
        | none => rest
      else []

/-- The header/body separator position of a part: CRLFCRLF, then LFLF,
then the whole part. -/
def partHdrEnd (part : List Char) : Nat :=
  match idxOfFrom part "\r\n\r\n".toList 0 with
  | some i => i
  | none =>
      match idxOfFrom part "\n\n".toList 0 with
      | some j => j
      | none => part.length

/-- The status line of a part: up to the first CRLF, else up to the
header/body separator. -/
def partStatusLine (part : List Char) : List Char :=
  match idxOfFrom part "\r\n".toList 0 with
  | some e => jsSubstringL part 0 e
  | none => jsSubstringL part 0 (partHdrEnd part)

/-- The loop body of `processResponses` for one `raw.substring` slice:
separator search (CRLFCRLF, then LFLF), status-line split, header scan,
body extraction. -/
def parsePart (url : String) (startTime : Nat) (parseJSON cached : Bool)
    (part0 : List Char) : Frame :=
  let part := stripLeadingNL part0
  let hdrEnd := partHdrEnd part
  let sepLen :=
    match idxOfFrom part "\r\n\r\n".toList 0 with
    | some _ => 4
    | none =>
        match idxOfFrom part "\n\n".toList 0 with
        | some _ => 2
        | none => 0
  let statusLineEnd := idxOfFrom part "\r\n".toList 0
  let statusLine := partStatusLine part
  let status := statusFromLine (String.mk statusLine) 500
  let cursor0 :=
    match statusLineEnd with
    | some e => e + 2
    | none => statusLine.length
  let headers := headerScan part cursor0 hdrEnd (hdrEnd + 2)
  let body :=
    if sepLen ≠ 0 then jsTrim (String.mk (jsSubstringL part (hdrEnd + sepLen) part.length))
    else ""
  ⟨url, body, headers, status, startTime, parseJSON, cached⟩

/-- `processResponses`: locate frame boundaries, slice, and parse each
slice; an input with no status line yields the empty list. -/
def processResponses (url raw : String) (startTime : Nat)
    (parseJSON cached : Bool) : List Frame :=
  let starts := findHttpStarts raw
  if starts = [] then []
  else
    let l := raw.toList
    let starts2 := starts ++ [l.length]
    (starts2.zip starts2.tail).map
      (fun p => parsePart url startTime parseJSON cached (jsSubstringL l p.1 p.2))

/-- `getHeader` (first case-insensitive match; `normalizeHeaders` is the
identity on well-formed pair lists, which this embedding uses throughout). -/
def getHeaderVal (headers : List (String × String)) (name : String) :
    Option String :=
  let n := jsToLower name
  (headers.find? (fun p => jsToLower p.1 = n)).map Prod.snd

/-- `getContentType`: value of the first content-type header, else `""`
(the charCode fast path of the source is equivalent to the
case-insensitive comparison). -/
def getContentType (headers : List (String × String)) : String :=
  (getHeaderVal headers "content-type").getD ""

/-! ## Envelope construction (buildResponse) and chain reconstruction
(processAndBuild) -/

/-- The value stored in the envelope: decoded text, a parsed JSON value,
or the raw binary body. -/
inductive RespData
  | text (s : String)
  | json (j : JsonLite)
  | raw (s : String)
deriving Repr

structure Envelope where
  url : String
  rdata : RespData
  headers : List (String × String)   -- the CustomHeaders contents (lower-cased names)
  status : Int
  ok : Bool
  redirected : Bool
  rtype : String
  cached : Bool
deriving Repr

/-- `buildResponse`: body-size ceiling, content-type sniff, optional JSON
parse, flag derivation, headers validation.  The elapsed-time field is
wall-clock state and is not modelled. -/
def buildResponse (entry : Frame) (maxBodySize : Option Nat) :
    Except ErrKind Envelope :=
  let overLimit : Bool :=
    match maxBodySize with
    | some m => m ≠ 0 ∧ m * 1024 * 1024 < entry.body.length
    | none => false
  if overLimit then
    .error .bodySizeExceeded
  else
    let hdrPairs := entry.headers
    let lower := jsToLower (getContentType hdrPairs)
    let isText := jsStartsWith lower "text/" ∨ strContainsSub lower "json" ∨
      strContainsSub lower "xml" ∨ strContainsSub lower "javascript"
    let rdata : RespData :=
      if isText then
        let txt := latin1ToUtf8 entry.body
        if entry.parseJSON then
          match jsonParse txt with
          | some parsed => if parsed.isObjOrArr then .json parsed else .text txt
          | none => .text txt
        else .text txt
      else .raw entry.body
    match mkHeaders hdrPairs with
    | .error e => .error e
    | .ok stored =>
        .ok
          { url := entry.url
            rdata := rdata
            headers := stored
            status := entry.status
            ok := 200 ≤ entry.status ∧ entry.status < 300
            redirected := 300 ≤ entry.status ∧ entry.status < 400
            rtype := if 400 ≤ entry.status then "error" else "default"
            cached := entry.cached }

/-- Modelled from the spec: standard URL-resolution rules, i.e. the
platform builtin `new URL(loc, base).toString()`, which is not part of
this repository.  The model covers absolute references, protocol-relative
references, and path-absolute references against an absolute base; other
reference forms are treated as unresolvable (`none`, a thrown TypeError),
which also models resolution against a malformed base. -/
def resolveUrl (loc base : String) : Option String :=
  let schemeEnd := idxOfFrom loc.toList "://".toList 0
  match schemeEnd with
  | some _ => some loc
  | none =>
      match idxOfFrom base.toList "://".toList 0 with
      | none => none
      | some se =>
          let bl := base.toList
          let afterScheme := bl.drop (se + 3)
          let host := afterScheme.takeWhile (fun c => c ≠ '/')
          if host = [] then none
          else
            let origin := String.mk (bl.take (se + 3) ++ host)
            match loc.toList with
            | '/' :: '/' :: rest =>
                some (String.mk (bl.take (se + 1) ++ ('/' :: '/' :: rest)))
            | '/' :: rest => some (origin ++ String.mk ('/' :: rest))
            | _ => none

structure BuiltResponse where
  final : Envelope
  redirects : List String ⊕ List Envelope
deriving Repr

/-- The `redirectsAsUrls` walk: resolve each 3xx hop's truthy location
against the current URL (no try/catch in this branch: a failed resolution
is a thrown TypeError). -/
def redirectWalk (cur : String) :
    List Frame → Except ErrKind (String × List String)
  | [] => .ok (cur, [])
  | e :: rest =>
      if 300 ≤ e.status ∧ e.status < 400 then
        match getHeaderVal e.headers "location" with
        | some loc =>
            if loc ≠ "" then
              match resolveUrl loc cur with
              | none => .error .typeError
              | some cur2 =>
                  (redirectWalk cur2 rest).map (fun p => (p.1, cur2 :: p.2))
            else redirectWalk cur rest
        | none => redirectWalk cur rest
      else redirectWalk cur rest

def buildAll (maxBodySize : Option Nat) :
    List Frame → Except ErrKind (List Envelope)
  | [] => .ok []
  | e :: rest =>
      match buildResponse e maxBodySize with
      | .error err => .error err
      | .ok env => (buildAll maxBodySize rest).map (fun t => env :: t)

/-- The object-mode URL fix-up loop (`for i < lastIdx`): a 3xx wrapper
with a truthy location updates the next wrapper's URL.  The fuel argument
is structural bookkeeping only; the list shrinks at every call, so any
fuel of at least the list length gives the loop's behaviour. -/
def fixChainAux : Nat → String → List Envelope → Except ErrKind (List Envelope)
  | 0, _, l => .ok l
  | _, _, [] => .ok []
  | _, _, [w] => .ok [w]
  | f + 1, cur, w :: w2 :: rest =>
      if 300 ≤ w.status ∧ w.status < 400 then
        match headersGetJoined w.headers "location" with
        | some loc =>
            if loc ≠ "" then
              match resolveUrl loc cur with
              | none => .error .typeError
              | some cur2 =>
                  (fixChainAux f cur2 ({ w2 with url := cur2 } :: rest)).map
                    (fun l => w :: l)
            else (fixChainAux f cur (w2 :: rest)).map (fun l => w :: l)
        | none => (fixChainAux f cur (w2 :: rest)).map (fun l => w :: l)
      else (fixChainAux f cur (w2 :: rest)).map (fun l => w :: l)

def fixChain (cur : String) (ws : List Envelope) :
    Except ErrKind (List Envelope) :=
  fixChainAux ws.length cur ws

/-- The reconstruction performed by `processAndBuild` after the leading
frame may have been discarded.  On an empty frame list both branches
dereference an undefined element (`entries[entries.length - 1]` /
`wrappers[0]`), modelled as a thrown TypeError. -/
def rebuildFrames (url : String) (entries : List Frame)
    (maxBodySize : Option Nat) (asUrls : Bool) : Except ErrKind BuiltResponse :=
  if asUrls then
    match redirectWalk url entries with
    | .error e => .error e
    | .ok (cur, urls) =>
        match entries.getLast? with
        | none => .error .typeError
        | some lastEntry =>
            match buildResponse lastEntry maxBodySize with
            | .error e => .error e
            | .ok env =>
                .ok ⟨{ env with url := cur, redirected := urls ≠ [] }, .inl urls⟩
  else
    match buildAll maxBodySize entries with
    | .error e => .error e
    | .ok [] => .error .typeError
    | .ok (w0 :: rest) =>
        match fixChain url ({ w0 with url := url } :: rest) with
        | .error e => .error e
        | .ok fixed =>
            match fixed.getLast? with
            | none => .error .typeError
            | some lastW =>
                .ok ⟨{ lastW with redirected := fixed.length > 1 },
                  .inr fixed.dropLast⟩

/-- `processAndBuild`: parse the frames, discard a leading location-less
frame of a multi-frame sequence (`!h0` also discards an empty location
value), then rebuild. -/
def processAndBuild (url raw : String) (startTime : Nat)
    (parseJSON cached : Bool) (maxBodySize : Option Nat) (asUrls : Bool) :
    Except ErrKind BuiltResponse :=
  let entries := processResponses url raw startTime parseJSON cached
  let entries2 :=
    if 1 < entries.length then
      match entries with
      | [] => entries
      | e0 :: rest =>
          match getHeaderVal e0.headers "location" with
          | none => rest
          | some v => if v = "" then rest else entries
    else entries
  rebuildFrames url entries2 maxBodySize asUrls

/-! ## The streaming head parser (parseReader, services/http.ts)

The growable scratch buffer of the source is memory management for the
accumulated stream contents; the model works on the concatenation of all
chunks read so far.  A stream that ends before a complete header block is
the thrown `Stream ended before headers finished`. -/

structure StreamHead where
  status : Int
  headers : List (String × String)
  leftover : String
  redirects : List String
deriving Repr, DecidableEq

/-- `UTF8_DECODER.decode(headerBytes).split('\r\n')`. -/
def streamLines (buf : List Char) (hdrEnd : Nat) : List String :=
  jsSplit (latin1ToUtf8 (String.mk (buf.take hdrEnd))) "\r\n"

/-- `lines.shift()`: the status line. -/
def streamFirstLine (buf : List Char) (hdrEnd : Nat) : String :=
  (streamLines buf hdrEnd).headD ""

/-- The header-line loop of `parseReader`: split each line at the first
colon, trim key and value, and remember the value of a `location` raw key
(the raw-length 8/9 fast path only ever matches the 8-character key). -/
def scanHeaderLines (lines : List String) :
    List (String × String) × Option String :=
  lines.foldl
    (fun acc line =>
      match idxOfFrom line.toList [':'] 0 with
      | none => acc
      | some idx =>
          let rawKey := String.mk (line.toList.take idx)
          let key := jsTrim rawKey
          let value := jsTrim (String.mk (line.toList.drop (idx + 1)))
          let newLoc :=
            if (rawKey.length = 8 ∨ rawKey.length = 9) ∧
                jsToLower rawKey = "location" then some value
            else acc.2
          (acc.1 ++ [(key, value)], newLoc))
    ([], none)

/-- One `for (;;)` pass of `parseReader`: find the header terminator,
extract status and headers, skip 1xx frames and 3xx frames with a truthy
location (recording the resolved redirect), return the first other head. -/
def parseReaderAux (originalUrl : String) :
    Nat → String → List Char → List String → Except ErrKind StreamHead
  | 0, _, _, _ => .error .streamEnded
  | f + 1, currentUrl, buf, redirects =>
      match idxOfFrom buf "\r\n\r\n".toList 0 with
      | none => .error .streamEnded
      | some hdrEnd =>
          let leftover := buf.drop (hdrEnd + 4)
          let status := statusFromLine (streamFirstLine buf hdrEnd) 0
          if 100 ≤ status ∧ status < 200 then
            parseReaderAux originalUrl f currentUrl leftover redirects
          else
            let scanned := scanHeaderLines ((streamLines buf hdrEnd).drop 1)
            let locTruthy : Bool :=
              match scanned.2 with
              | some v => v ≠ ""
              | none => false
            if 300 ≤ status ∧ status < 400 ∧ locTruthy then
              let loc := scanned.2.getD ""
              let cur2 :=
                match resolveUrl loc currentUrl with
                | some u => u
                | none => loc    -- the catch branch: currentUrl = locationHeader
              parseReaderAux originalUrl f cur2 leftover (redirects ++ [cur2])
            else .ok ⟨status, scanned.1, String.mk leftover, redirects⟩

/-- `parseReader` on the full stream contents. -/
def parseReader (originalUrl raw : String) : Except ErrKind StreamHead :=
  parseReaderAux originalUrl (raw.length + 1) originalUrl raw.toList []

/-! ## The legacy buffered parser (ProcessResponse, services/response.ts) -/

/-- Scan to the next `\r` or `\n` starting at `pos` (the inner `while` of
the legacy header scanner). -/
def nextNewlinePos (l : List Char) (pos : Nat) : Nat :=
  pos + ((l.drop pos).takeWhile (fun c => c ≠ '\r' ∧ c ≠ '\n')).length

/-- The legacy header-line loop over the header block. -/
def legacyHeaderScan (hb : List Char) : Nat → Nat → List (String × String)
  | _, 0 => []
  | pos, f + 1 =>
      if pos < hb.length then
        let nextPos := nextNewlinePos hb pos
        let line := jsSubstringL hb pos nextPos
        let hdr? :=
          match idxOfFrom line ": ".toList 0 with
          | some ci =>
              some (String.mk (jsSubstringL line 0 ci),
                String.mk (jsSubstringL line (ci + 2) line.length))
          | none => none
        let rest :=
          if nextPos < hb.length then
            if hb[nextPos]? = some '\r' ∧ hb[nextPos + 1]? = some '\n' then
              legacyHeaderScan hb (nextPos + 2) f
            else legacyHeaderScan hb (nextPos + 1) f
          else []
        match hdr? with
        | some h => h :: rest
        | none => rest
      else []

/-- `ProcessResponse` (the superseded single-frame buffered parser): find
the header/body separator (CRLFCRLF, then LFLF), raise the tagged
invalid-response error carrying the raw text if neither occurs, then
extract status (500 fallback) and headers. -/
def ProcessResponseLegacy (url stdout : String) (requestStartTime : Nat)
    (parseJSON cached : Bool) : Except ErrKind Frame :=
  let l := stdout.toList
  let sep : Option (Nat × Nat) :=
    match idxOfFrom l "\r\n\r\n".toList 0 with
    | some i => some (i, 4)
    | none =>
        match idxOfFrom l "\n\n".toList 0 with
        | some i => some (i, 2)
        | none => none
  match sep with
  | none => .error (.invalidResponse stdout)
  | some (headerEndIndex, delimiterLength) =>
      let headerBlock := jsSubstringL l 0 headerEndIndex
      let body := jsTrim (String.mk (jsSubstringL l (headerEndIndex + delimiterLength)
        l.length))
      let firstLineEnd :=
        match idxOfFrom headerBlock "\r\n".toList 0 with
        | some i => i
        | none =>
            match idxOfFrom headerBlock "\n".toList 0 with
            | some i => i
            | none => headerBlock.length
      let statusLine := jsSubstringL headerBlock 0 firstLineEnd
      let status : Int :=
        match idxOfFrom statusLine [' '] 0 with
        | none => 500
        | some firstSpace =>
            let codeStr :=
              match idxOfFrom statusLine [' '] (firstSpace + 1) with
              | some secondSpace =>
                  jsSubstringL statusLine (firstSpace + 1) secondSpace
              | none => jsSubstringL statusLine (firstSpace + 1) statusLine.length
            match jsParseInt (String.mk codeStr) with
            | none => 500
            | some 0 => 500
            | some n => n
      let newlineLen := if headerBlock[firstLineEnd]? = some '\r' then 2 else 1
      let headers := legacyHeaderScan headerBlock (firstLineEnd + newlineLen)
        (headerBlock.length + 2)
      .ok ⟨url, body, headers, status, requestStartTime, parseJSON, cached⟩

/-! ## The command builder (services/command.ts)

`BuildCommand` is embedded as a function of the parsed URL object, the
request options, the global init, the capability flags (the module-level
`SUPPORTS` table, probed once from the transport binary), and an explicit
environment holding the ambient state the builder reads: the multipart
boundary randomness, the live DNS resolver, the `DNS_CACHE` contents and
the clock.  The `transformRequest` hooks are modelled as absent and the
`headerCache` memoization (pure result caching) is omitted. -/

def jsToUpper (s : String) : String :=
  String.mk (s.toList.map Char.toUpper)

/-- `containsAlphabet` (models/utils.ts). -/
def containsAlphabet (s : String) : Bool :=
  s.toList.any (fun c => ('A' ≤ c ∧ c ≤ 'Z') ∨ ('a' ≤ c ∧ c ≤ 'z'))

/-- `isValidIPv4` (models/utils.ts): 4 dot-separated parts, 1-3 digits,
no leading zero, each at most 255. -/
def isValidIPv4 (ip : String) : Bool :=
  let parts := jsSplit ip "."
  parts.length = 4 ∧ parts.all (fun p =>
    let l := p.toList
    l.length ≠ 0 ∧ l.length ≤ 3 ∧ ¬(1 < l.length ∧ l.head? = some '0') ∧
      l.all Char.isDigit ∧
      l.foldl (fun a c => a * 10 + (c.toNat - 48)) 0 ≤ 255)

/-- `Number(s)` restricted to optionally-signed integer numerals (the
proxy collaborator only feeds it port strings); `none` models `NaN`. -/
def jsNumberOpt (s : String) : Option Int :=
  let t := (jsTrim s).toList
  if t = [] then some 0
  else
    let core : List Char → Option Nat := fun cs =>
      if cs ≠ [] ∧ cs.all Char.isDigit then
        some (cs.foldl (fun a c => a * 10 + (c.toNat - 48)) 0)
      else none
    match t with
    | '-' :: rest => (core rest).map (fun n => -(n : Int))
    | '+' :: rest => (core rest).map (fun n => (n : Int))
    | rest => (core rest).map (fun n => (n : Int))

/-- `isValidPort` (models/proxy.ts). -/
def isValidPort (port : String) : Bool :=
  match jsNumberOpt port with
  | some n => 0 < n ∧ n ≤ 65535
  | none => false

/-- Modelled from the spec: `isValidHost` checks that the platform URL
parser (`new URL('http://' + host)`) accepts the host and yields a
nonempty hostname; the model admits the usual hostname alphabet. -/
def isValidHost (host : String) : Bool :=
  host ≠ "" ∧ host.toList.all (fun c =>
    ('a' ≤ c ∧ c ≤ 'z') ∨ ('A' ≤ c ∧ c ≤ 'Z') ∨ ('0' ≤ c ∧ c ≤ '9') ∨
      c = '.' ∨ c = '-' ∨ c = '_')

def schemeChar (c : Char) : Bool :=
  ('a' ≤ c ∧ c ≤ 'z') ∨ ('A' ≤ c ∧ c ≤ 'Z') ∨ ('0' ≤ c ∧ c ≤ '9') ∨
    c = '+' ∨ c = '.' ∨ c = '-'

def isAsciiLetter (c : Char) : Bool :=
  ('a' ≤ c ∧ c ≤ 'z') ∨ ('A' ≤ c ∧ c ≤ 'Z')

/-- The `^([a-zA-Z][a-zA-Z0-9+.-]*):\/\/` prefix match: returns the
scheme and the remaining input when present. -/
def matchProtocol (input : String) : Option (String × String) :=
  match input.toList with
  | [] => none
  | c :: rest =>
      if isAsciiLetter c then
        let scheme := c :: rest.takeWhile schemeChar
        let after := (c :: rest).drop scheme.length
        match after with
        | ':' :: '/' :: '/' :: tail => some (String.mk scheme, String.mk tail)
        | _ => none
      else none

/-- `formatProxyString` (models/proxy.ts) with no protocol override
(the builder call site passes only the input); `none` models the thrown
format errors. -/
def formatProxyString (input0 : String) : Option String :=
  let (protocol, input) :=
    match matchProtocol input0 with
    | some (scheme, rest) => (scheme, rest)
    | none => ("http", input0)
  if strContainsSub input "@" then
    let parts := jsSplit input "@"
    let credentials := (parts.get? 0).getD ""
    let hostPort := (parts.get? 1).getD ""
    let creds := jsSplit credentials ":"
    let username := (creds.get? 0).getD ""
    let password := (creds.get? 1).getD ""
    if username = "" ∨ password = "" then none
    else
      let hp := jsSplit hostPort ":"
      let host := (hp.get? 0).getD ""
      let port := (hp.get? 1).getD ""
      if ¬ isValidHost host then none
      else if ¬ isValidPort port then none
      else some (protocol ++ "://" ++ credentials ++ "@" ++ host ++ ":" ++ port)
  else
    let parts := jsSplit input ":"
    if parts.length = 2 then
      let host := (parts.get? 0).getD ""
      let port := (parts.get? 1).getD ""
      if ¬ isValidHost host then none
      else if ¬ isValidPort port then none
      else some (protocol ++ "://" ++ host ++ ":" ++ port)
    else if parts.length = 4 then
      let host := (parts.get? 0).getD ""
      let port := (parts.get? 1).getD ""
      let username := (parts.get? 2).getD ""
      let password := (parts.get? 3).getD ""
      if ¬ isValidHost host then none
      else if ¬ isValidPort port then none
      else if username = "" ∨ password = "" then none
      else some (protocol ++ "://" ++ username ++ ":" ++ password ++ "@"
        ++ host ++ ":" ++ port)
    else none

/-! ### Option types for the request descriptor -/

inductive HttpVer
  | v11   -- HTTP.Version11 = 1.1
  | v20   -- HTTP.Version20 = 2.0
  | v30   -- HTTP.Version30 = 3.0
deriving Repr, DecidableEq

/-- `CURL.HTTP_VERSION[version]`. -/
def httpVersionFlag : HttpVer → String
  | .v30 => "--http3"
  | .v20 => "--http2"
  | .v11 => "--http1.1"

/-- A `string | string[]` cipher value. -/
inductive StrOrList
  | one (s : String)
  | many (l : List String)
deriving Repr, DecidableEq

/-- `Array.isArray(v) ? v.join(':') : v`. -/
def StrOrList.render : StrOrList → String
  | .one s => s
  | .many l => jsIntercalate ":" l

/-- JS truthiness of the cipher value: an empty string is falsy, an
array is truthy. -/
def StrOrList.truthy : StrOrList → Bool
  | .one s => s ≠ ""
  | .many _ => true

structure CipherOpts where
  dflt : Option StrOrList    -- the DEFAULT cipher list
  tls13 : Option StrOrList   -- the TLS13 cipher list
deriving Repr, DecidableEq

structure TlsOpts where
  insecure : Bool
  versions : Option (List Nat)
  ciphers : Option CipherOpts
deriving Repr, DecidableEq

/-- `boolean | number` (dns.cache). -/
inductive BoolOrNum
  | b (b : Bool)
  | num (n : Nat)
deriving Repr, DecidableEq

def BoolOrNum.truthy : BoolOrNum → Bool
  | .b v => v
  | .num n => n ≠ 0

structure DnsOpts where
  servers : Option (List String)
  cache : Option BoolOrNum
  resolve : Option String
deriving Repr, DecidableEq

structure HttpOpts where
  version : Option HttpVer
  keepAlive : Option BoolOrNum
  keepAliveProbes : Option Nat
deriving Repr, DecidableEq

/-- One FormData entry value: a plain field or a file (Blob). -/
inductive FormVal
  | fld (value : String)
  | file (name ftype content : String)
deriving Repr, DecidableEq

/-- The body shapes `prepareRequestBody` distinguishes.  Binary payloads
(Blob/ArrayBuffer/view, drained ReadableStream) are carried as
byte-per-char strings; a plain object or array with JSON structure is a
`jsonMap`/`jsonArr`; anything else reaches the `String(body)` fallback
as `other`. -/
inductive BodyVal
  | str (s : String)
  | urlParams (pairs : List (String × String))
  | formData (entries : List (String × FormVal))
  | binary (content : String)
  | stream (content : String)
  | jsonArr (elems : List JsonLite)
  | jsonMap (members : List (String × JsonLite))
  | other (s : String)

structure ReqOptions where
  method : Option String
  maxTime : Option Nat
  connectionTimeout : Option Nat
  body : Option BodyVal
  compress : Bool
  proxy : Option String
  follow : Option BoolOrNum
  tls : Option TlsOpts
  dns : Option DnsOpts
  http : Option HttpOpts
  headers : Option (List (String × String))
  sortHeaders : Bool

/-- The fields of `GlobalInit` the builder reads (`Bun.version` is the
process-wide runtime version). -/
structure GlobalOpts where
  tcpFastOpen : Bool
  tcpNoDelay : Bool
  defaultAgent : Option String
  bunVersion : String

/-- The `SUPPORTS` table: capability flags probed once from the
transport binary's self-description. -/
structure Caps where
  http2 : Bool
  http3 : Bool
  dnsServers : Bool
  dnsResolve : Bool
  tcpFastopen : Bool
  tcpNodelay : Bool

/-- The parsed `URL` object fields the builder reads. -/
structure UrlObj where
  href : String       -- url.toString()
  host : String
  protocol : String   -- with trailing colon, e.g. "https:"

/-- The ambient state the builder reads: `Math.random` boundary
material, the live resolver, the `DNS_CACHE` contents and the clock. -/
structure BuildEnv where
  boundaryRand : String
  dnsLookup : String → Option String
  dnsCache : JsMap String
  now : Nat

/-! ### Body encoding -/

def percentHexDigit (n : Nat) : Char :=
  if n < 10 then Char.ofNat (48 + n) else Char.ofNat (55 + n)

def utf8EncodeChar (c : Char) : List Nat :=
  let n := c.toNat
  if n < 0x80 then [n]
  else if n < 0x800 then [0xC0 + n / 64, 0x80 + n % 64]
  else if n < 0x10000 then [0xE0 + n / 4096, 0x80 + n / 64 % 64, 0x80 + n % 64]
  else [0xF0 + n / 262144, 0x80 + n / 4096 % 64, 0x80 + n / 64 % 64, 0x80 + n % 64]

/-- `application/x-www-form-urlencoded` escaping of one character
(the `URLSearchParams` serializer). -/
def urlParamEncodeChar (c : Char) : String :=
  if ('a' ≤ c ∧ c ≤ 'z') ∨ ('A' ≤ c ∧ c ≤ 'Z') ∨ ('0' ≤ c ∧ c ≤ '9') ∨
      c = '*' ∨ c = '-' ∨ c = '.' ∨ c = '_' then String.singleton c
  else if c = ' ' then "+"
  else String.join ((utf8EncodeChar c).map (fun b =>
    String.mk ['%', percentHexDigit (b / 16), percentHexDigit (b % 16)]))

/-- Modelled from the spec: `URLSearchParams.toString()` (a platform
builtin), the standard percent-encoded serialization. -/
def urlParamsToString (pairs : List (String × String)) : String :=
  jsIntercalate "&" (pairs.map (fun p =>
    String.join (p.1.toList.map urlParamEncodeChar) ++ "="
      ++ String.join (p.2.toList.map urlParamEncodeChar)))

/-- `buildMultipartBody` for a given boundary: one part per entry, files
with filename and content-type (with the `|| 'file'` and
`|| 'application/octet-stream'` fallbacks), then the closing boundary. -/
def multipartBody (boundary : String) (entries : List (String × FormVal)) :
    String :=
  String.join (entries.map (fun e =>
    let header := "--" ++ boundary
      ++ "\r\nContent-Disposition: form-data; name=\"" ++ e.1 ++ "\""
    match e.2 with
    | .file name ftype content =>
        header ++ "; filename=\"" ++ (if name = "" then "file" else name)
          ++ "\"\r\nContent-Type: "
          ++ (if ftype = "" then "application/octet-stream" else ftype)
          ++ "\r\n\r\n" ++ content ++ "\r\n"
    | .fld v => header ++ "\r\n\r\n" ++ v ++ "\r\n"))
    ++ "--" ++ boundary ++ "--\r\n"

structure PreparedBody where
  body : String
  isBuf : Bool           -- the payload is a Buffer (pushed as .toString('utf-8'))
  btype : Option String  -- the inferred content type
deriving Repr, DecidableEq

/-- `prepareRequestBody`, by body shape, with the multipart boundary
taken from the ambient randomness. -/
def prepareRequestBody (env : BuildEnv) : BodyVal → PreparedBody
  | .str s => ⟨s, false, some (determineContentType s)⟩
  | .urlParams pairs =>
      ⟨urlParamsToString pairs, false, some "application/x-www-form-urlencoded"⟩
  | .formData entries =>
      let boundary := "----WebKitFormBoundary" ++ env.boundaryRand
      ⟨multipartBody boundary entries, true,
        some ("multipart/form-data; boundary=" ++ boundary)⟩
  | .binary content => ⟨content, true, none⟩
  | .stream content => ⟨content, true, none⟩
  | .jsonArr elems => ⟨jsonStringify (.jarr elems), false, some "application/json"⟩
  | .jsonMap ms => ⟨jsonStringify (.jobj ms), false, some "application/json"⟩
  | .other s => ⟨s, false, some (determineContentType s)⟩

/-! ### Header ordering (sortHeaders, types.ts) -/

/-- The fixed priority table of `sortHeaders`. -/
def priorityList : List String :=
  ["accept", "accept-charset", "accept-encoding", "accept-language",
   "access-control-request-headers", "access-control-request-method",
   "authorization", "cache-control", "connection", "content-length",
   "content-type", "cookie", "dnt", "expect", "host", "if-match",
   "if-modified-since", "if-none-match", "if-range", "if-unmodified-since",
   "keep-alive", "origin", "pragma", "proxy-authorization", "range",
   "referer", "sec-fetch-dest", "sec-fetch-mode", "sec-websocket-extensions",
   "sec-websocket-key", "sec-websocket-protocol", "sec-websocket-version",
   "te", "upgrade-insecure-requests", "user-agent"]

def rankOfAux : List String → Nat → String → Option Nat
  | [], _, _ => none
  | h :: t, i, k => if h = k then some i else rankOfAux t (i + 1) k

/-- `prioritizedOrder.get(key)`. -/
def rankOf (k : String) : Option Nat :=
  rankOfAux priorityList 0 k

/-- The `sortHeaders` comparator on lower-cased keys (`localeCompare`
modelled as code-point order). -/
def hdrCompare (a b : String) : Int :=
  match rankOf a, rankOf b with
  | some i, some j => (i : Int) - j
  | some _, none => -1
  | none, some _ => 1
  | none, none => if a < b then -1 else if b < a then 1 else 0

/-- Stable insertion keeping earlier elements first on ties
(`Array.prototype.sort` is stable). -/
def insertTrip (x : String × String × String) :
    List (String × String × String) → List (String × String × String)
  | [] => [x]
  | y :: ys => if hdrCompare y.2.1 x.2.1 ≤ 0 then y :: insertTrip x ys
      else x :: y :: ys

/-- `sortHeaders` (types.ts): decorate with lower-cased keys, stable-sort
by the priority comparator, undecorate. -/
def sortHeadersModel (hs : List (String × String)) : List (String × String) :=
  let triples := hs.map (fun p => (p.1, jsToLower p.1, p.2))
  (triples.foldl (fun acc t => insertTrip t acc) []).map
    (fun t => (t.1, t.2.2))

/-- `prepareHeaders`: the three input shapes all yield the pair list;
the `headerCache` memoization is pure result caching and is omitted. -/
def prepareHeaders (headers : Option (List (String × String))) (sort : Bool) :
    List (String × String) :=
  match headers with
  | none => []
  | some hs => if sort then sortHeadersModel hs else hs

/-! ### TLS and DNS flag stages -/

def tlsMapFlag : Nat → Option String
  | 769 => some "--tlsv1.0"
  | 770 => some "--tlsv1.1"
  | 771 => some "--tlsv1.2"
  | 772 => some "--tlsv1.3"
  | _ => none

def tlsMapStr : Nat → Option String
  | 769 => some "1.0"
  | 770 => some "1.1"
  | 771 => some "1.2"
  | 772 => some "1.3"
  | _ => none

/-- `buildTLSOptions`: insecure flag, floor/ceiling version flags from
`Math.min`/`Math.max` of the version set (default TLS 1.2 + 1.3, i.e.
771 and 772), then cipher flags. -/
def buildTLSOptions (o : ReqOptions) : List String :=
  match o.tls with
  | none => []
  | some t =>
      let tlsVers := t.versions.getD [771, 772]
      let low := tlsVers.min?
      let high := tlsVers.max?
      (if t.insecure then ["--insecure"] else [])
        ++ (match low with
            | some lv =>
                match tlsMapFlag lv with
                | some f => [f]
                | none => []
            | none => [])
        ++ (match high with
            | some hv =>
                match tlsMapStr hv with
                | some s => ["--tls-max", s]
                | none => []
            | none => [])
        ++ (match t.ciphers with
            | none => []
            | some c =>
                (match c.dflt with
                 | some v => if v.truthy then ["--ciphers", v.render] else []
                 | none => [])
                  ++ (match c.tls13 with
                      | some v =>
                          if v.truthy ∧ 772 ∈ tlsVers then
                            ["--tls13-ciphers", v.render]
                          else []
                      | none => []))

/-- `PROTOCOL_PORTS` (models/constants.ts). -/
def protocolPort : String → Option Nat
  | "http:" => some 80
  | "https:" => some 443
  | "ftp:" => some 21
  | "ftps:" => some 990
  | "sftp:" => some 22
  | "scp:" => some 22
  | "smtp:" => some 25
  | "smtps:" => some 465
  | "imap:" => some 143
  | "imaps:" => some 993
  | "pop3:" => some 110
  | "pop3s:" => some 995
  | "ldap:" => some 389
  | "ldaps:" => some 636
  | "mqtt:" => some 1883
  | "mqtts:" => some 8883
  | "telnet:" => some 23
  | "tftp:" => some 69
  | "rtsp:" => some 554
  | "smb:" => some 445
  | "dict:" => some 2628
  | _ => none

/-- Truthiness of `dnsOpts.cache`. -/
def dnsCacheTruthyB (d : DnsOpts) : Bool :=
  match d.cache with
  | some v => v.truthy
  | none => false

/-- The `--dns-servers` stage: emitted when servers are given and the
binary supports an alternate resolver. -/
def dnsServerFlags (d : DnsOpts) (caps : Caps) : List String :=
  match d.servers with
  | some servers =>
      if caps.dnsServers then ["--dns-servers", jsIntercalate "," servers]
      else []
  | none => []

/-- The body of `buildDNSOptions` when `options.dns` is present: explicit
servers when supported, then host-to-IP pinning through the `DNS_CACHE`
(maxItems 255) or a live lookup, with a cache fill on a fresh valid
result.  Returns the emitted flags and the updated `DNS_CACHE`. -/
def dnsFlagsSome (url : UrlObj) (d : DnsOpts) (caps : Caps)
    (env : BuildEnv) : List String × JsMap String :=
  let serverFlags := dnsServerFlags d caps
  if dnsCacheTruthyB d ∧ caps.dnsResolve ∧ containsAlphabet url.host = true then
    let got := ttlGet env.dnsCache url.host env.now
    let cached := got.1
    let st1 := got.2
    let r0 : Option String :=
      match d.resolve with
      | some s => if s = "" then none else some s
      | none => none
    let resolveIP : Option String :=
      match r0 with
      | some ip => some ip
      | none =>
          match cached with
          | some c => some c
          | none => env.dnsLookup url.host
    match resolveIP with
    | some ip =>
        if isValidIPv4 ip then
          let ttlVal :=
            match d.cache with
            | some (.num n) => n
            | _ => 30
          let st2 :=
            if cached = none then ttlSet 255 st1 url.host ip ttlVal env.now
            else st1
          let port :=
            match protocolPort url.protocol with
            | some p => toString p
            | none => "443"
          (serverFlags ++ ["--resolve", url.host ++ ":" ++ port ++ ":" ++ ip],
            st2)
        else (serverFlags, st1)
    | none => (serverFlags, st1)
  else (serverFlags, env.dnsCache)

/-- `buildDNSOptions`: a no-op when `options.dns` is absent. -/
def buildDNSOptions (url : UrlObj) (o : ReqOptions) (caps : Caps)
    (env : BuildEnv) : List String × JsMap String :=
  match o.dns with
  | none => ([], env.dnsCache)
  | some d => dnsFlagsSome url d caps env

/-- `urlStr.replace(/\[|\]/g, ...)`. -/
def encodeBrackets (s : String) : String :=
  String.join (s.toList.map (fun c =>
    if c = '[' then "%5B" else if c = ']' then "%5D" else String.singleton c))

/-- The header-emitting loop: pushes `-H` pairs, captures an explicit
user-agent for its dedicated flag, and tracks an explicit content-type. -/
def headerLoop (ordered : List (String × String)) (ua0 : String) :
    List String × String × Bool :=
  ordered.foldl
    (fun acc p =>
      let lower := jsToLower p.1
      if lower = "content-type" then
        (acc.1 ++ ["-H", p.1 ++ ": " ++ p.2], acc.2.1, true)
      else if lower = "user-agent" then (acc.1, p.2, acc.2.2)
      else (acc.1 ++ ["-H", p.1 ++ ": " ++ p.2], acc.2.1, acc.2.2))
    ([], ua0, false)

/-- The `--proxy` stage: nothing for an absent/falsy proxy, the
formatted proxy URL otherwise; a malformed string is the thrown
construction error. -/
def proxyFlagsOf (o : ReqOptions) : Except String (List String) :=
  match o.proxy with
  | none => .ok []
  | some p =>
      if p = "" then .ok []
      else
        match formatProxyString p with
        | some fp => .ok ["--proxy", fp]
        | none => .error "invalid proxy"

/-- `BuildCommand` (services/command.ts): the full argument vector, plus
the updated `DNS_CACHE`; a malformed proxy string is the thrown
construction error. -/
def buildCommand (url : UrlObj) (o : ReqOptions) (g : GlobalOpts) (caps : Caps)
    (env : BuildEnv) : Except String (List String × JsMap String) :=
  let urlStr := url.href
  let maxTime := o.maxTime.getD 10
  let connTimeout := o.connectionTimeout.getD 5
  let method := jsToUpper (o.method.getD "GET")
  let version := (o.http.bind HttpOpts.version).getD
    (if caps.http2 then .v20 else .v11)
  let dnsPart := buildDNSOptions url o caps env
  match proxyFlagsOf o with
  | .error e => .error e
  | .ok proxyFlags =>
      let followFlags :=
        match o.follow.getD (.b true) with
        | .b true => ["--location", "--max-redirs", "10"]
        | .b false => []
        | .num n => if n ≠ 0 then ["--location", "--max-redirs", toString n]
            else []
      let keepAliveFlags :=
        if version = .v11 then
          (match o.http.bind HttpOpts.keepAlive with
           | some (.b false) => ["--no-keepalive"]
           | some (.num 0) => ["--no-keepalive"]
           | some (.num n) => ["--keepalive-time", toString n]
           | some (.b true) => []
           | none => [])
            ++ (match o.http.bind HttpOpts.keepAliveProbes with
                | some n => ["--keepalive-cnt", toString n]
                | none => [])
        else []
      let prepared := o.body.map (prepareRequestBody env)
      let bodyFlags :=
        match prepared with
        | some p => ["--data-raw", if p.isBuf then latin1ToUtf8 p.body else p.body]
        | none => []
      let ordered := prepareHeaders o.headers o.sortHeaders
      let hl := headerLoop ordered (g.defaultAgent.getD ("Bun/" ++ g.bunVersion))
      let ctFlags :=
        match prepared with
        | some p =>
            match p.btype with
            | some t => if ¬ hl.2.2 then ["-H", "content-type: " ++ t] else []
            | none => []
        | none => []
      let methodFlags := if method = "HEAD" then ["-I"] else ["-X", method]
      .ok
        ("curl" :: "-i" :: "-s" :: "-S" :: "-m" :: toString maxTime
            :: "--connect-timeout" :: toString connTimeout
            :: httpVersionFlag version
            :: (buildTLSOptions o ++ dnsPart.1
              ++ (if o.compress ∧ method ≠ "HEAD" then ["--compressed"] else [])
              ++ (if g.tcpFastOpen ∧ caps.tcpFastopen then ["--tcp-fastopen"] else [])
              ++ (if g.tcpNoDelay ∧ caps.tcpNodelay then ["--tcp-nodelay"] else [])
              ++ proxyFlags ++ followFlags ++ keepAliveFlags ++ bodyFlags
              ++ hl.1 ++ ["-A", hl.2.1] ++ ctFlags ++ methodFlags
              ++ [encodeBrackets urlStr]),
          dnsPart.2)

set_option maxRecDepth 100000

/-! ## Claim C5: redirect-chain reconstruction on the three-block input -/

/-- The redirect list of a built response when reported as URL strings. -/
def redirectUrlsOf (r : BuiltResponse) : Option (List String) :=
  match r.redirects with
  | .inl l => some l
  | .inr _ => none

/-- The synthetic raw output: a 302 with Location /b, a 301 with
Location /c, and a 200, back to back. -/
def chainRaw : String :=
  "HTTP/1.1 302 Found\r\nLocation: /b\r\n\r\nHTTP/1.1 301 Moved Permanently\r\nLocation: /c\r\n\r\nHTTP/1.1 200 OK\r\nContent-Type: text/plain\r\n\r\nok"

/-- [C5] Parsing the three-block raw output against original URL
https://h/a with redirects reported as URL strings yields the redirect
list https://h/b, https://h/c (each relative Location resolved against
the current hop's URL) and final status 200. -/
theorem redirect_chain_reconstruction :
    (processAndBuild "https://h/a" chainRaw 0 true false none true).map
        (fun r => (redirectUrlsOf r, r.final.status))
      = .ok (some ["https://h/b", "https://h/c"], 200) := rfl

/-! ## Claim C6: raw output with no parseable status line -/

/-- [C6] The claim as stated is false: on raw output with no status line
the buffered pipeline throws a plain TypeError (dereferencing an
undefined frame), not the tagged invalid-response error carrying the raw
text. -/
theorem no_status_line_counterexample :
    processAndBuild "https://h/a" "garbage" 0 true false none true
        = .error .typeError ∧
      ErrKind.typeError ≠ ErrKind.invalidResponse "garbage" :=
  ⟨rfl, by decide⟩

/-- [C6, amended] On raw output with no parseable status line the current
buffered pipeline yields no frames and envelope construction throws (an
undefined-access TypeError), so no partial envelope is returned; the
superseded single-frame parser raised the tagged invalid-response error
carrying the raw text when no header/body separator was present. -/
theorem no_status_line_behaviour :
    (∀ url raw t pj c mbs asUrls, findHttpStarts raw = [] →
      processResponses url raw t pj c = [] ∧
      processAndBuild url raw t pj c mbs asUrls = .error .typeError) ∧
    (∀ url stdout t pj c,
      idxOfFrom stdout.toList ("\r\n\r\n".toList) 0 = none →
      idxOfFrom stdout.toList ("\n\n".toList) 0 = none →
      ProcessResponseLegacy url stdout t pj c
        = .error (.invalidResponse stdout)) := by
  constructor
  · intro url raw t pj c mbs asUrls h
    have hpr : processResponses url raw t pj c = [] := by
      unfold processResponses
      simp [h]
    refine ⟨hpr, ?_⟩
    unfold processAndBuild
    rw [hpr]
    cases asUrls <;> simp [rebuildFrames, redirectWalk, buildAll]
  · intro url stdout t pj c h1 h2
    unfold ProcessResponseLegacy
    simp only [String.toList] at h1 h2
    simp [h1, h2]

/-- [C6, witness] The amended statement at concrete inputs. -/
theorem no_status_line_behaviour_witness :
    (findHttpStarts "garbage" = [] ∧
      processResponses "u" "garbage" 0 true false = [] ∧
      processAndBuild "u" "garbage" 0 true false none false
        = .error .typeError) ∧
    (idxOfFrom "noframe".toList ("\r\n\r\n".toList) 0 = none ∧
      idxOfFrom "noframe".toList ("\n\n".toList) 0 = none ∧
      ProcessResponseLegacy "u" "noframe" 0 true false
        = .error (.invalidResponse "noframe")) :=
  ⟨⟨by decide,
      no_status_line_behaviour.1 "u" "garbage" 0 true false none false (by decide)⟩,
    ⟨by decide, by decide,
      no_status_line_behaviour.2 "u" "noframe" 0 true false (by decide) (by decide)⟩⟩

/-! ## Claim C8: status extraction fallbacks -/

/-- Is `parseInt` result falsy (`NaN` or `0`), i.e. does `||` fall back? -/
def jsOrIntFires (v : Option Int) : Bool :=
  match v with
  | none => true
  | some n => n = 0

/-- Does `parseInt(statusLine.split(' ')[1], 10)` produce a falsy value,
i.e. does the `||` fallback fire for this status line? -/
def malformedStatusTok (line : String) : Bool :=
  match (jsSplit line " ").get? 1 with
  | none => true
  | some tok => jsOrIntFires (jsParseInt tok)

theorem jsOrInt_of_fires (v : Option Int) (fb : Int)
    (h : jsOrIntFires v = true) : jsOrInt v fb = fb := by
  cases v with
  | none => rfl
  | some n =>
      simp [jsOrIntFires] at h
      simp [jsOrInt, h]

theorem statusFromLine_malformed (line : String) (fb : Int)
    (h : malformedStatusTok line = true) : statusFromLine line fb = fb := by
  unfold malformedStatusTok at h
  unfold statusFromLine
  cases h1 : (jsSplit line " ").get? 1 with
  | none => rfl
  | some tok =>
      rw [h1] at h
      have h2 : jsOrIntFires (jsParseInt tok) = true := h
      show jsOrInt (jsParseInt tok) fb = fb
      exact jsOrInt_of_fires _ _ h2

/-- [C8] The claim as stated is false: a malformed status line falls back
to 0, not 500, in streaming parsing, and buffered parsing can produce a
status that is not a 3-digit integer. -/
theorem status_fallback_counterexample :
    (parseReader "https://h/a" "HTTP/1.1 ABC DEF\r\nServer: x\r\n\r\ntail").map
        StreamHead.status = .ok 0 ∧
      (0 : Int) ≠ 500 ∧
      (processResponses "https://h/a" "HTTP/1.1 7 Hi\r\n\r\nx" 0 true false).map
        Frame.status = [7] ∧
      (7 : Int) < 100 :=
  ⟨rfl, by decide, rfl, by decide⟩

/-- [C8, amended] A status line whose second token yields no nonzero
integer falls back to 500 in buffered parsing and to 0 in streaming
parsing; extracted statuses are whatever integer `parseInt` produces and
are not constrained to 3 digits. -/
theorem status_fallbacks (url : String) (t : Nat) (pj c : Bool)
    (part0 : List Char) (url2 raw2 : String) (hdrEnd : Nat)
    (hm1 : malformedStatusTok (String.mk (partStatusLine (stripLeadingNL part0)))
      = true)
    (hfind : idxOfFrom raw2.toList ("\r\n\r\n".toList) 0 = some hdrEnd)
    (hm2 : malformedStatusTok (streamFirstLine raw2.toList hdrEnd) = true) :
    (parsePart url t pj c part0).status = 500 ∧
    ∃ h, parseReader url2 raw2 = .ok h ∧ h.status = 0 := by
  constructor
  · unfold parsePart
    simp only
    exact statusFromLine_malformed _ _ hm1
  · have hz : statusFromLine (streamFirstLine raw2.toList hdrEnd) 0 = 0 :=
      statusFromLine_malformed _ _ hm2
    unfold parseReader
    rw [parseReaderAux.eq_def]
    simp only [hfind, hz]
    norm_num

/-- [C8, witness] The amended statement at concrete malformed inputs. -/
theorem status_fallbacks_witness :
    (malformedStatusTok (String.mk (partStatusLine
        (stripLeadingNL "HTTP/1.1 ABC\r\n\r\nx".toList))) = true ∧
      idxOfFrom "HTTP/1.1 ABC DEF\r\nServer: x\r\n\r\ntail".toList
        ("\r\n\r\n".toList) 0 = some 27 ∧
      malformedStatusTok (streamFirstLine
        "HTTP/1.1 ABC DEF\r\nServer: x\r\n\r\ntail".toList 27) = true) ∧
    ((parsePart "u" 0 true false "HTTP/1.1 ABC\r\n\r\nx".toList).status = 500 ∧
      ∃ h, parseReader "u2" "HTTP/1.1 ABC DEF\r\nServer: x\r\n\r\ntail" = .ok h ∧
        h.status = 0) :=
  ⟨⟨by decide, by decide, by decide⟩,
    status_fallbacks "u" 0 true false "HTTP/1.1 ABC\r\n\r\nx".toList "u2"
      "HTTP/1.1 ABC DEF\r\nServer: x\r\n\r\ntail" 27 (by decide) (by decide)
      (by decide)⟩

/-! ## Claim C9: discarding the leading location-less frame -/

/-- Does the very first parsed frame carry no Location header? -/
def firstHasNoLocation (entries : List Frame) : Bool :=
  match entries.head? with
  | some e0 => (getHeaderVal e0.headers "location").isNone
  | none => false

/-- [C9] In a multi-frame sequence whose first frame carries no Location
header, the first frame is discarded before redirect-chain
reconstruction; a single frame is never discarded. -/
theorem leading_frame_discard (url raw : String) (t : Nat) (pj c : Bool)
    (mbs : Option Nat) (asUrls : Bool) :
    (1 < (processResponses url raw t pj c).length →
      firstHasNoLocation (processResponses url raw t pj c) = true →
      processAndBuild url raw t pj c mbs asUrls
        = rebuildFrames url (processResponses url raw t pj c).tail mbs asUrls) ∧
    ((processResponses url raw t pj c).length = 1 →
      processAndBuild url raw t pj c mbs asUrls
        = rebuildFrames url (processResponses url raw t pj c) mbs asUrls) := by
  constructor
  · intro hlen hloc
    unfold processAndBuild
    cases hE : processResponses url raw t pj c with
    | nil =>
        rw [hE] at hlen
        simp at hlen
    | cons e0 rest =>
        rw [hE] at hlen hloc
        unfold firstHasNoLocation at hloc
        simp only [List.head?] at hloc
        have hnone : getHeaderVal e0.headers "location" = none :=
          Option.isNone_iff_eq_none.mp hloc
        have hpos : 0 < rest.length := by
          simp [List.length_cons] at hlen
          omega
        simp [hE, hlen, hnone, hpos]
  · intro hlen
    unfold processAndBuild
    have hnot : ¬ (1 < (processResponses url raw t pj c).length) := by
      rw [hlen]
      omega
    simp [hnot]

/-- [C9, witness] The two parts at concrete raw outputs: a leading
100-continue frame without Location is dropped; a lone 200 frame is kept. -/
theorem leading_frame_discard_witness :
    (1 < (processResponses "u" "HTTP/1.1 100 Continue\r\n\r\nHTTP/1.1 200 OK\r\n\r\nhi" 0 true false).length ∧
      firstHasNoLocation (processResponses "u" "HTTP/1.1 100 Continue\r\n\r\nHTTP/1.1 200 OK\r\n\r\nhi" 0 true false) = true ∧
      processAndBuild "u" "HTTP/1.1 100 Continue\r\n\r\nHTTP/1.1 200 OK\r\n\r\nhi" 0 true false none true
        = rebuildFrames "u" (processResponses "u" "HTTP/1.1 100 Continue\r\n\r\nHTTP/1.1 200 OK\r\n\r\nhi" 0 true false).tail none true) ∧
    ((processResponses "u" "HTTP/1.1 200 OK\r\n\r\nhi" 0 true false).length = 1 ∧
      processAndBuild "u" "HTTP/1.1 200 OK\r\n\r\nhi" 0 true false none true
        = rebuildFrames "u" (processResponses "u" "HTTP/1.1 200 OK\r\n\r\nhi" 0 true false) none true) :=
  ⟨⟨by decide, by decide,
      (leading_frame_discard "u" "HTTP/1.1 100 Continue\r\n\r\nHTTP/1.1 200 OK\r\n\r\nhi" 0 true false none true).1
        (by decide) (by decide)⟩,
    ⟨by decide,
      (leading_frame_discard "u" "HTTP/1.1 200 OK\r\n\r\nhi" 0 true false none true).2
        (by decide)⟩⟩

/-! ## Claims C3 and C4: determinism and version resolution of the
command builder -/

/-- Concrete fixtures: a plain request against https://h/ with an
HTTP/2-capable binary. -/
def basicOptions : ReqOptions :=
  { method := none, maxTime := none, connectionTimeout := none, body := none,
    compress := false, proxy := none, follow := none, tls := none, dns := none,
    http := none, headers := none, sortHeaders := false }

def basicGlobal : GlobalOpts :=
  { tcpFastOpen := false, tcpNoDelay := false, defaultAgent := some "UA",
    bunVersion := "1.0.0" }

def capsH2 : Caps :=
  { http2 := true, http3 := false, dnsServers := true, dnsResolve := true,
    tcpFastopen := true, tcpNodelay := true }

def urlH : UrlObj := { href := "https://h/", host := "h", protocol := "https:" }

def envA : BuildEnv :=
  { boundaryRand := "r1", dnsLookup := fun _ => some "1.2.3.4",
    dnsCache := [], now := 0 }

def envB : BuildEnv :=
  { boundaryRand := "r1", dnsLookup := fun _ => some "5.6.7.8",
    dnsCache := [], now := 0 }

/-- The default request shape after `prepareOptions`: dns caching on, no
explicit resolve. -/
def dnsOptions : ReqOptions :=
  { basicOptions with
      dns := some { servers := none, cache := some (.b true), resolve := none } }

/-- [C3] The claim as stated is false: with the (default) DNS pinning
enabled and an alphabetic host, two invocations with identical request
descriptor, body encoding and capability flags produce different argument
vectors when the live DNS lookup answers differ. -/
theorem buildCommand_env_counterexample :
    (buildCommand urlH dnsOptions basicGlobal capsH2 envA).toOption.map Prod.fst
      ≠ (buildCommand urlH dnsOptions basicGlobal capsH2 envB).toOption.map
          Prod.fst := by
  decide

/-- Is the body shape independent of the ambient randomness (everything
but multipart form data)? -/
def bodyEnvFree : Option BodyVal → Bool
  | some (.formData _) => false
  | _ => true

/-- Is the DNS stage for a present `dns` option independent of the
resolver, cache state and clock: pinning disabled, unsupported, host
non-alphabetic, or an explicit valid resolve IP? -/
def dnsEnvFreeSome (d : DnsOpts) (url : UrlObj) (caps : Caps) : Bool :=
  !dnsCacheTruthyB d || !caps.dnsResolve || !containsAlphabet url.host ||
    (match d.resolve with
     | some ip => decide (ip ≠ "" ∧ isValidIPv4 ip = true)
     | none => false)

/-- Is the whole DNS stage independent of the environment? -/
def dnsEnvFree (o : ReqOptions) (url : UrlObj) (caps : Caps) : Bool :=
  match o.dns with
  | none => true
  | some d => dnsEnvFreeSome d url caps

theorem prepare_env_free (env1 env2 : BuildEnv) (b : Option BodyVal)
    (h : bodyEnvFree b = true) :
    b.map (prepareRequestBody env1) = b.map (prepareRequestBody env2) := by
  cases b with
  | none => simp
  | some bv =>
      cases bv with
      | formData entries => simp [bodyEnvFree] at h
      | str s => simp only [Option.map_some', prepareRequestBody]
      | urlParams pairs => simp only [Option.map_some', prepareRequestBody]
      | binary content => simp only [Option.map_some', prepareRequestBody]
      | stream content => simp only [Option.map_some', prepareRequestBody]
      | jsonArr elems => simp only [Option.map_some', prepareRequestBody]
      | jsonMap members => simp only [Option.map_some', prepareRequestBody]
      | other s => simp only [Option.map_some', prepareRequestBody]

theorem dnsFlagsSome_env_free (url : UrlObj) (d : DnsOpts) (caps : Caps)
    (env1 env2 : BuildEnv) (h : dnsEnvFreeSome d url caps = true) :
    (dnsFlagsSome url d caps env1).1 = (dnsFlagsSome url d caps env2).1 := by
  unfold dnsEnvFreeSome at h
  unfold dnsFlagsSome
  by_cases hg : dnsCacheTruthyB d = true ∧ caps.dnsResolve = true ∧
      containsAlphabet url.host = true
  · obtain ⟨hc, hr, ha⟩ := hg
    rw [hc, hr, ha] at h
    simp only [Bool.not_true, Bool.false_or] at h
    revert h
    cases hre : d.resolve with
    | none => intro h; simp at h
    | some ip =>
        intro h
        simp only [decide_eq_true_eq] at h
        simp [hc, hr, ha, hre, h.1, h.2]
  · simp [hg]

theorem dnsFlags_env_free (url : UrlObj) (o : ReqOptions) (caps : Caps)
    (env1 env2 : BuildEnv) (h : dnsEnvFree o url caps = true) :
    (buildDNSOptions url o caps env1).1 = (buildDNSOptions url o caps env2).1 := by
  unfold dnsEnvFree at h
  cases hdns : o.dns with
  | none => simp [buildDNSOptions, hdns]
  | some d =>
      rw [hdns] at h
      simp only [buildDNSOptions, hdns]
      exact dnsFlagsSome_env_free url d caps env1 env2 h

/-- [C3, amended] The Command Builder is deterministic for fixed request
descriptor, body encoding and capability flags provided the build does
not consult the ambient environment: the body is not multipart form data
(whose boundary is random), and DNS pinning either does not run (caching
disabled, unsupported, or a non-alphabetic host) or is given an explicit
valid resolve IP.  Under those conditions the argument vector is
identical across any two environments (resolver answers, DNS cache
contents, clock, randomness). -/
theorem buildCommand_deterministic (url : UrlObj) (o : ReqOptions)
    (g : GlobalOpts) (caps : Caps) (env1 env2 : BuildEnv)
    (hb : bodyEnvFree o.body = true) (hd : dnsEnvFree o url caps = true) :
    Except.map Prod.fst (buildCommand url o g caps env1)
      = Except.map Prod.fst (buildCommand url o g caps env2) := by
  have hbody := prepare_env_free env1 env2 o.body hb
  have hdns := dnsFlags_env_free url o caps env1 env2 hd
  unfold buildCommand
  cases hpp : proxyFlagsOf o with
  | error e => simp [hpp]
  | ok pf =>
      simp only [hpp, Except.map]
      rw [hdns, hbody]

/-- [C3, witness] The amended statement at a concrete request with a
string body and an explicit resolve IP, across the two environments of
the counterexample. -/
def pinnedDns : DnsOpts :=
  { servers := some ["1.1.1.1", "1.0.0.1"], cache := some (.b true),
    resolve := some "9.9.9.9" }

def pinnedOptions : ReqOptions :=
  { basicOptions with body := some (.str "hello"), dns := some pinnedDns }

theorem buildCommand_deterministic_witness :
    (bodyEnvFree pinnedOptions.body = true ∧
      dnsEnvFree pinnedOptions urlH capsH2 = true) ∧
    Except.map Prod.fst (buildCommand urlH pinnedOptions basicGlobal capsH2 envA)
      = Except.map Prod.fst
          (buildCommand urlH pinnedOptions basicGlobal capsH2 envB) :=
  ⟨⟨by decide, by decide⟩,
    buildCommand_deterministic urlH pinnedOptions basicGlobal capsH2 envA envB
      (by decide) (by decide)⟩

/-- The options of the C4 counterexample: a proxy is configured, no
per-request HTTP version override. -/
def proxyOptions : ReqOptions := { basicOptions with proxy := some "1.2.3.4:8080" }

/-- [C4] The claim as stated is false: with a proxy configured, no
explicit version override, and the HTTP/2 capability present, the built
vector carries `--http2` at the version slot, not the `--http1.1` the
claim's no-proxy condition would require. -/
theorem http_version_flag_counterexample :
    (buildCommand urlH proxyOptions basicGlobal capsH2 envA).toOption.map
        (fun p => p.1.get? 8) = some (some "--http2") ∧
      ("--http2" : String) ≠ "--http1.1" :=
  ⟨rfl, by decide⟩

/-- [C4, amended] The HTTP-version flag (always at index 8 of the built
vector) is resolved as: explicit per-request override first; otherwise
HTTP/2 exactly when the binary reports the HTTP/2 capability (with or
without a proxy); otherwise HTTP/1.1.  HTTP/3 is never selected without
an explicit override. -/
theorem http_version_flag_resolution (url : UrlObj) (o : ReqOptions)
    (g : GlobalOpts) (caps : Caps) (env : BuildEnv) (argv : List String)
    (st : JsMap String)
    (h : buildCommand url o g caps env = .ok (argv, st)) :
    argv.get? 8 = some (httpVersionFlag ((o.http.bind HttpOpts.version).getD
      (if caps.http2 then .v20 else .v11))) ∧
    (∀ v, o.http.bind HttpOpts.version = some v →
      argv.get? 8 = some (httpVersionFlag v)) ∧
    (o.http.bind HttpOpts.version = none →
      argv.get? 8 = (if caps.http2 then some "--http2" else some "--http1.1") ∧
      argv.get? 8 ≠ some "--http3") := by
  have hmain : argv.get? 8 = some (httpVersionFlag
      ((o.http.bind HttpOpts.version).getD (if caps.http2 then .v20 else .v11))) := by
    unfold buildCommand at h
    cases hpp : proxyFlagsOf o with
    | error e =>
        rw [hpp] at h
        simp at h
    | ok pf =>
        rw [hpp] at h
        simp only [Except.ok.injEq, Prod.mk.injEq] at h
        obtain ⟨h1, _⟩ := h
        rw [← h1]
        rfl
  refine ⟨hmain, fun v hv => ?_, fun hn => ?_⟩
  · rw [hv] at hmain
    simpa using hmain
  · constructor
    · cases hc : caps.http2 <;> rw [hn, hc] at hmain <;>
        simpa [httpVersionFlag] using hmain
    · cases hc : caps.http2 <;> rw [hn, hc] at hmain <;>
        simp [httpVersionFlag] at hmain <;> simp [hmain]

/-- The argument vector built for the plain fixture request. -/
def c4argv : List String :=
  ["curl", "-i", "-s", "-S", "-m", "10", "--connect-timeout", "5", "--http2",
   "--location", "--max-redirs", "10", "-A", "UA", "-X", "GET", "https://h/"]

/-- [C4, witness] The amended statement at the plain fixture request. -/
theorem http_version_flag_resolution_witness :
    buildCommand urlH basicOptions basicGlobal capsH2 envA
        = .ok (c4argv, ([] : JsMap String)) ∧
    (c4argv.get? 8 = (if capsH2.http2 then some "--http2" else some "--http1.1") ∧
      c4argv.get? 8 ≠ some "--http3") :=
  ⟨rfl,
    (http_version_flag_resolution urlH basicOptions basicGlobal capsH2 envA
      c4argv [] rfl).2.2 rfl⟩

end BunCurl
